import Mathlib

/-!
Verification of the pearpass desktop secure pairing / session core.

Shallow embedding of the native-messaging security core of the
pearpass desktop app:

* `src/services/security/appIdentity.js` (identity, pairing code, peer record),
* `src/services/security/sessionManager.js` (encrypt/decrypt, handshake,
  replay protection; present in the sources as an unnamed file),
* `src/services/handlers/SecurityHandlers.js` (the RPC facade).

JavaScript byte arrays are `List Nat` with entries below 256; machine
integers are `Nat` with explicit `% 2^32` where the source relies on 32-bit
overflow (SHA-256); JS `number` values that can be fractional are modelled
as an inductive over `Rat`; fallible code returns `Except` paired with the
post-state, since a JS exception does not roll state back.

External primitives (libsodium, the vault KV client, `localStorage`) are
not repository code; they are modelled from their documented contracts
(spec sections 4.1 and 6), executably.  The session store
(`sessionStore.js`) is repository code not present under `src/`; it is
modelled from the spec, marked as such below.
-/

namespace PearPass

/-- Byte strings: lists of naturals, each entry meant to be `< 256`. -/
abbrev Bytes := List Nat

/-- All entries of a byte string are genuine bytes. -/
def Bytes.valid (bs : Bytes) : Prop := ∀ b ∈ bs, b < 256

instance (bs : Bytes) : Decidable bs.valid := by
  unfold Bytes.valid; infer_instance

/-! ## SHA-256 (model of `sodium.crypto_hash_sha256`, an external primitive;
implemented bit-for-bit from FIPS 180-4 so concrete pairing codes can be
evaluated). -/

/-- Truncate to a 32-bit word. -/
def w32 (x : Nat) : Nat := x % 4294967296

/-- 32-bit modular addition. -/
def wadd (a b : Nat) : Nat := (a + b) % 4294967296

/-- 32-bit right rotation. -/
def rotr (n x : Nat) : Nat := w32 ((x >>> n) ||| (x <<< (32 - n)))

/-- 32-bit complement. -/
def wnot (x : Nat) : Nat := x ^^^ 4294967295

/-- SHA-256 round constants. -/
def shaK : List Nat :=
  [1116352408, 1899447441, 3049323471, 3921009573, 961987163,
   1508970993, 2453635748, 2870763221, 3624381080, 310598401,
   607225278, 1426881987, 1925078388, 2162078206, 2614888103,
   3248222580, 3835390401, 4022224774, 264347078, 604807628,
   770255983, 1249150122, 1555081692, 1996064986, 2554220882,
   2821834349, 2952996808, 3210313671, 3336571891, 3584528711,
   113926993, 338241895, 666307205, 773529912, 1294757372,
   1396182291, 1695183700, 1986661051, 2177026350, 2456956037,
   2730485921, 2820302411, 3259730800, 3345764771, 3516065817,
   3600352804, 4094571909, 275423344, 430227734, 506948616,
   659060556, 883997877, 958139571, 1322822218, 1537002063,
   1747873779, 1955562222, 2024104815, 2227730452, 2361852424,
   2428436474, 2756734187, 3204031479, 3329325298]

/-- SHA-256 initial hash value. -/
def shaH0 : List Nat :=
  [1779033703, 3144134277, 1013904242, 2773480762,
   1359893119, 2600822924, 528734635, 1541459225]

/-- Big sigma-0. -/
def bsig0 (x : Nat) : Nat := rotr 2 x ^^^ rotr 13 x ^^^ rotr 22 x

/-- Big sigma-1. -/
def bsig1 (x : Nat) : Nat := rotr 6 x ^^^ rotr 11 x ^^^ rotr 25 x

/-- Small sigma-0. -/
def ssig0 (x : Nat) : Nat := rotr 7 x ^^^ rotr 18 x ^^^ (x >>> 3)

/-- Small sigma-1. -/
def ssig1 (x : Nat) : Nat := rotr 17 x ^^^ rotr 19 x ^^^ (x >>> 10)

/-- Choose function. -/
def chFn (x y z : Nat) : Nat := (x &&& y) ^^^ (wnot x &&& z)

/-- Majority function. -/
def majFn (x y z : Nat) : Nat := (x &&& y) ^^^ (x &&& z) ^^^ (y &&& z)

/-- Extend a 16-word block to the 64-word message schedule. -/
def shaSchedule (ws : List Nat) : List Nat :=
  (List.range 48).foldl
    (fun acc _ =>
      let n := acc.length
      let g := fun (i : Nat) => acc.getD (n - i) 0
      acc ++ [wadd (wadd (ssig1 (g 2)) (g 7)) (wadd (ssig0 (g 15)) (g 16))])
    ws

/-- One SHA-256 compression step over the eight working variables. -/
def shaStep (ws : List Nat) (st : List Nat) (i : Nat) : List Nat :=
  match st with
  | [a, b, c, d, e, f, g, h] =>
      let t1 := wadd (wadd (wadd h (bsig1 e)) (wadd (chFn e f g) (shaK.getD i 0)))
        (ws.getD i 0)
      let t2 := wadd (bsig0 a) (majFn a b c)
      [wadd t1 t2, a, b, c, wadd d t1, e, f, g]
  | st => st

/-- Compress one 16-word block into the running hash. -/
def compressBlock (h : List Nat) (block : List Nat) : List Nat :=
  let ws := shaSchedule block
  List.zipWith wadd h ((List.range 64).foldl (shaStep ws) h)

/-- Merkle–Damgård padding: `0x80`, zeros, 64-bit big-endian bit length. -/
def sha256pad (msg : Bytes) : Bytes :=
  let len := msg.length
  let z := (64 + 56 - ((len + 1) % 64)) % 64
  let bitLen := len * 8
  msg ++ [128] ++ List.replicate z 0
      ++ (List.range 8).map (fun i => (bitLen >>> ((7 - i) * 8)) &&& 255)

/-- Big-endian bytes to 32-bit words, four at a time. -/
def bytesToWords : Bytes → List Nat
  | a :: b :: c :: d :: rest =>
      (a * 16777216 + b * 65536 + c * 256 + d) :: bytesToWords rest
  | _ => []

/-- Chunk a word list into 16-word blocks (fuel-based recursion). -/
def chunk16Aux : Nat → List Nat → List (List Nat)
  | 0, _ => []
  | _, [] => []
  | fuel + 1, w :: ws => ((w :: ws).take 16) :: chunk16Aux fuel ((w :: ws).drop 16)

/-- Chunk a word list into 16-word blocks. -/
def chunk16 (ws : List Nat) : List (List Nat) := chunk16Aux ws.length ws

/-- 32-bit words back to big-endian bytes. -/
def wordsToBytes : List Nat → Bytes
  | [] => []
  | w :: ws =>
      ((w >>> 24) &&& 255) :: ((w >>> 16) &&& 255) :: ((w >>> 8) &&& 255)
        :: (w &&& 255) :: wordsToBytes ws

/-- SHA-256 of a byte string. -/
def sha256 (msg : Bytes) : Bytes :=
  wordsToBytes ((chunk16 (bytesToWords (sha256pad msg))).foldl compressBlock shaH0)

/-! ## Base64 (model of Node's `Buffer` base64 codec, an external primitive;
exact on canonical encodings, which are the only inputs the embedded code
feeds it). -/

/-- The standard (non-URL-safe) base64 alphabet. -/
def b64Alphabet : List Char :=
  "ABCDEFGHIJKLMNOPQRSTUVWXYZabcdefghijklmnopqrstuvwxyz0123456789+/".toList

/-- Character for a 6-bit value. -/
def sextetChar (n : Nat) : Char := b64Alphabet.getD n 'A'

/-- 6-bit value of an alphabet character. -/
def charSextet (c : Char) : Nat := b64Alphabet.indexOf c

/-- Encode bytes three at a time, padding with `=`. -/
def b64EncodeChunks : Bytes → List Char
  | [] => []
  | [b1] => [sextetChar (b1 / 4), sextetChar (b1 % 4 * 16), '=', '=']
  | [b1, b2] =>
      [sextetChar (b1 / 4), sextetChar (b1 % 4 * 16 + b2 / 16),
       sextetChar (b2 % 16 * 4), '=']
  | b1 :: b2 :: b3 :: rest =>
      sextetChar (b1 / 4) :: sextetChar (b1 % 4 * 16 + b2 / 16) ::
        sextetChar (b2 % 16 * 4 + b3 / 64) :: sextetChar (b3 % 64) ::
        b64EncodeChunks rest

/-- `Buffer.from(bytes).toString('base64')`. -/
def toBase64 (bs : Bytes) : String := String.mk (b64EncodeChunks bs)

/-- Decode characters four at a time, honouring `=` padding. -/
def b64DecodeChunks : List Char → Bytes
  | c1 :: c2 :: c3 :: c4 :: rest =>
      let s2 := charSextet c2
      let b1 := charSextet c1 * 4 + s2 / 16
      if c3 = '=' then [b1]
      else
        let s3 := charSextet c3
        let b2 := s2 % 16 * 16 + s3 / 4
        if c4 = '=' then [b1, b2]
        else b1 :: b2 :: (s3 % 4 * 64 + charSextet c4) :: b64DecodeChunks rest
  | [c1, c2] => [charSextet c1 * 4 + charSextet c2 / 16]
  | [c1, c2, c3] =>
      let s2 := charSextet c2
      let s3 := charSextet c3
      [charSextet c1 * 4 + s2 / 16, s2 % 16 * 16 + s3 / 4]
  | _ => []

/-- `new Uint8Array(Buffer.from(s, 'base64'))`. -/
def fromBase64 (s : String) : Bytes := b64DecodeChunks s.toList

/-! ## String helpers mirroring the JS formatting calls. -/

/-- UTF-8 bytes of an ASCII string (all strings the core hashes are ASCII). -/
def strBytes (s : String) : Bytes := s.toList.map Char.toNat

/-- `String#toUpperCase()` on the ASCII strings the core compares
(tokens and hex codes): uppercase the ASCII letters. -/
def jsToUpperCase (s : String) : String :=
  String.mk (s.toList.map (fun c =>
    if 'a' ≤ c ∧ c ≤ 'z' then Char.ofNat (c.toNat - 32) else c))

/-- `String#padStart(6, '0')`. -/
def padStart6 (s : String) : String :=
  if s.length < 6 then String.mk (List.replicate (6 - s.length) '0') ++ s else s

/-- One uppercase hex digit. -/
def hexDigitUpper (n : Nat) : Char := "0123456789ABCDEF".toList.getD n '0'

/-- One lowercase hex digit. -/
def hexDigitLower (n : Nat) : Char := "0123456789abcdef".toList.getD n '0'

/-- Uppercase hex of a byte string (`toString('hex').toUpperCase()`). -/
def bytesHexUpper (bs : Bytes) : String :=
  String.mk (bs.foldr (fun b acc => hexDigitUpper (b / 16) :: hexDigitUpper (b % 16) :: acc) [])

/-- Lowercase hex of a byte string (`toString('hex')`). -/
def bytesHexLower (bs : Bytes) : String :=
  String.mk (bs.foldr (fun b acc => hexDigitLower (b / 16) :: hexDigitLower (b % 16) :: acc) [])

/-- `Buffer#readUInt32BE(0)` on (at least) four bytes. -/
def beU32 (bs : Bytes) : Nat :=
  bs.getD 0 0 * 16777216 + bs.getD 1 0 * 65536 + bs.getD 2 0 * 256 + bs.getD 3 0

/-- `TypedArray#set(src, offset)`: overwrite `target` from `offset` on. -/
def uint8ArraySet (target : Bytes) (src : Bytes) (offset : Nat) : Bytes :=
  (target.take offset ++ src ++ target.drop (offset + src.length)).take target.length

/-! ## `appIdentity.js`: the pairing-code derivation -/

/-- `PAIRING_CODE_TAG = Buffer.from('pearpass/pairingcode/v1', 'utf8')`. -/
def PAIRING_CODE_TAG : Bytes := strBytes "pearpass/pairingcode/v1"

/-- `getPairingCode` exactly as written in `appIdentity.js`: note the two
`input.set(publicKey, _)` calls — the second one, at offset
`secret.length`, overwrites part of the previously written secret and
public key before hashing. -/
def getPairingCode (ed25519PublicKeyB64 pairingSecretB64 : String) : String :=
  let secret := fromBase64 pairingSecretB64
  let publicKey := fromBase64 ed25519PublicKeyB64
  let input0 : Bytes :=
    List.replicate (PAIRING_CODE_TAG.length + secret.length + publicKey.length) 0
  let input1 := uint8ArraySet input0 PAIRING_CODE_TAG 0
  let input2 := uint8ArraySet input1 secret PAIRING_CODE_TAG.length
  let input3 := uint8ArraySet input2 publicKey (PAIRING_CODE_TAG.length + secret.length)
  let input := uint8ArraySet input3 publicKey secret.length
  let out := sha256 input
  let code := padStart6 (Nat.repr (beU32 (out.take 4) % 1000000))
  let suffix := bytesHexUpper ((out.drop 4).take 2)
  code ++ "-" ++ suffix

/-- The pairing-code derivation as the spec documents it (and as the
comment inside `getPairingCode` claims): `h = sha256(tag ‖ secret ‖ pk)`,
then `%06d-%04X` of `h[0..4]` mod 10^6 and `h[4..6]`.  Written from the
spec's words, for comparison with `getPairingCode` above. -/
def getPairingCodeSpecLayout (ed25519PublicKeyB64 pairingSecretB64 : String) : String :=
  let secret := fromBase64 pairingSecretB64
  let publicKey := fromBase64 ed25519PublicKeyB64
  let out := sha256 (PAIRING_CODE_TAG ++ secret ++ publicKey)
  let code := padStart6 (Nat.repr (beU32 (out.take 4) % 1000000))
  let suffix := bytesHexUpper ((out.drop 4).take 2)
  code ++ "-" ++ suffix

/-- `getFingerprint`: lowercase hex SHA-256 of the decoded public key. -/
def getFingerprint (ed25519PublicKeyB64 : String) : String :=
  bytesHexLower (sha256 (fromBase64 ed25519PublicKeyB64))

/-! ## Error codes

`createErrorWithCode.js` and `securityErrors.js` are not under `src/`; the
codes are taken from the call sites and spec section 7.  Only the code of
a thrown error matters to any claim, so an error is just its code.
`typeError` and `rangeError` stand for the built-in JS exceptions raised
by member access on `undefined` and by `new Uint8Array(negativeLength)`;
`kvError` stands for a rejection coming out of the external vault client. -/
inductive Err
  | typeError | rangeError | kvError
  | pairingTokenRequired | clientPublicKeyRequired | invalidPairingToken
  | invalidPairingSecret | pairingSecretPersistenceFailed
  | clientAlreadyPaired | missingClientPublicKey
  | noPendingPairing | clientKeyMismatch
  | nativeMessagingDisabled | notPaired | clientNotPaired
  | missingEphemeralPublicKey | missingSessionId | missingClientSignature
  | sessionNotFound | invalidClientPublicKey | invalidClientSignature
  | invalidTranscript | clientSignatureInvalid
  | decryptFailed | invalidSeq | replayDetected
  | identityKeysUnavailable
  deriving DecidableEq, Repr

/-- A JS `number`-typed argument as it can arrive over the wire: not a
number at all, `NaN`, an infinity, or a finite value (finite doubles are
exact rationals, so `Rat` carries them without loss for the comparisons
the code performs). -/
inductive JSNum
  | notNum
  | nan
  | posInf
  | negInf
  | num (q : Rat)
  deriving DecidableEq, Repr

/-- Is the value a finite number (`typeof seq === 'number' && Number.isFinite(seq)`)? -/
def JSNum.isFiniteNumber : JSNum → Bool
  | .num _ => true
  | _ => false

/-! ## Association lists (the vault's key-value map and the session map) -/

/-- Lookup in an association list. -/
def alistGet {β : Type} : List (String × β) → String → Option β
  | [], _ => none
  | p :: rest, k => if p.1 = k then some p.2 else alistGet rest k

/-- Insert-or-replace in an association list (replaces in place, appends
if the key is new — the order JS object/Map updates preserve). -/
def alistPut {β : Type} (l : List (String × β)) (k : String) (v : β) : List (String × β) :=
  if l.any (fun p => p.1 = k) then l.map (fun p => if p.1 = k then (k, v) else p)
  else l ++ [(k, v)]

/-- Delete from an association list. -/
def alistRemove {β : Type} (l : List (String × β)) (k : String) : List (String × β) :=
  l.filter (fun p => ¬ p.1 = k)

/-! ## Sessions and world state -/

/-- One live session, as `createSession` builds it.

Modelled from the spec: `sessionStore.js` is repository code not present
under `src/`; spec section 3 gives the record — 32-byte symmetric `key`,
the handshake `transcript`, `sendSeq` and `lastRecvSeq` both starting at
0, and the verified flag starting `false` (the source field name,
`clientVerified`, is taken from its readers in `SecurityHandlers.js`). -/
structure Session where
  key : Bytes
  transcript : Bytes
  sendSeq : Nat
  lastRecvSeq : Rat
  clientVerified : Bool
  deriving DecidableEq, Repr

/-- The module-level `MEMORY_IDENTITY` cache of `appIdentity.js`. -/
structure MemIdentity where
  ed25519PublicKeyBytes : Bytes
  ed25519PrivateKeyBytes : Bytes
  x25519PublicKeyBytes : Bytes
  x25519PrivateKeyBytes : Bytes
  creationDate : String
  deriving DecidableEq, Repr

/-- The whole mutable world the core touches:

* `vault`: the encrypted KV store behind the external vault client
  (spec section 6 contract); `locked` makes its writes fail and its
  reads resolve to null, modelling a not-yet-unlocked vault;
* `encInitialized`: the flag behind `encryptionGetStatus`/`encryptionInit`;
* `memIdentity`: the module-level in-memory identity cache;
* `lsClientPub`: the `localStorage` slot `NM_CLIENT_PUBLIC_KEY`
  (the unprotected cache);
* `sessions`: the in-memory session map (spec section 4.4);
* `nmEnabled`: the "native-messaging enabled" flag, modelled from the
  spec since `nativeMessagingPreferences.js` is not under `src/`;
* `rng`: counter feeding the modelled CSPRNG;
* `keygenCalls`: counts executions of the keypair-generation block of
  `generateAndPersistIdentity` (one `crypto_sign_keypair` plus one
  `crypto_box_keypair`), so "does not regenerate" is observable;
* `now`: what `new Date().toISOString()` returns. -/
structure WorldState where
  vault : List (String × String)
  locked : Bool
  encInitialized : Bool
  memIdentity : Option MemIdentity
  lsClientPub : Option String
  sessions : List (String × Session)
  nmEnabled : Bool
  rng : Nat
  keygenCalls : Nat
  now : String
  deriving DecidableEq, Repr

/-- Model of the CSPRNG (`sodium.randombytes_buf`, an external primitive):
a deterministic byte stream indexed by the state's `rng` counter. -/
def freshBytes (seed n : Nat) : Bytes :=
  (List.range n).map (fun i => (seed * 131 + i * 7 + 13) % 256)

/-- A mixing value for the modelled crypto primitives. -/
def mixBytes (l : Bytes) : Nat :=
  l.foldl (fun a b => (a * 257 + b + 1) % 1000003) 7

/-- Model of `sodium.crypto_scalarmult` (external X25519 primitive). -/
def scalarmult (sk pk : Bytes) : Bytes :=
  (List.range 32).map (fun i => (mixBytes (sk ++ pk) + i) % 256)

/-- Model of `sodium.crypto_sign_detached` (external Ed25519 primitive).
No claim depends on the algebra linking it to verification. -/
def edSign (sk msg : Bytes) : Bytes :=
  (List.range 64).map (fun i => (mixBytes (sk ++ msg) * 3 + i) % 256)

/-- Model of `sodium.crypto_sign_verify_detached` (external Ed25519
primitive): an opaque boolean test of `(sig, msg, pk)`. -/
def edVerify (sig msg pk : Bytes) : Bool :=
  sig = (List.range 64).map (fun i => (mixBytes (pk ++ msg) + i) % 256)

/-- Model of the XSalsa20 keystream byte at position `i` (external). -/
def sbKeystream (key nonce : Bytes) (i : Nat) : Nat :=
  (mixBytes (key ++ nonce) + i * 31 + i / 7) % 256

/-- Model of the Poly1305 tag over the encrypted body (external). -/
def sbTag (key nonce body : Bytes) : Bytes :=
  (List.range 16).map (fun i => (mixBytes (key ++ nonce ++ body) * 5 + i) % 256)

/-- Encrypt a byte stream against the keystream starting at offset `i`. -/
def sbEncryptFrom (key nonce : Bytes) : Nat → Bytes → Bytes
  | _, [] => []
  | i, b :: bs => (b + sbKeystream key nonce i) % 256 :: sbEncryptFrom key nonce (i + 1) bs

/-- Decrypt a byte stream against the keystream starting at offset `i`. -/
def sbDecryptFrom (key nonce : Bytes) : Nat → Bytes → Bytes
  | _, [] => []
  | i, b :: bs =>
      (b + 256 - sbKeystream key nonce i) % 256 :: sbDecryptFrom key nonce (i + 1) bs

/-- Model of `sodium.crypto_secretbox_easy` (external XSalsa20-Poly1305):
16-byte MAC, then the encrypted body — its contract (spec section 4.1) is
`secretboxSeal(key, nonce24, pt) → ct+16`, authenticated. -/
def secretboxSeal (key nonce pt : Bytes) : Bytes :=
  sbTag key nonce (sbEncryptFrom key nonce 0 pt) ++ sbEncryptFrom key nonce 0 pt

/-- Model of `sodium.crypto_secretbox_open_easy` (external): recompute and
check the MAC, decrypt on success — contract `secretboxOpen(key, nonce24,
ct) → pt | ⊥`. -/
def secretboxOpen (key nonce ct : Bytes) : Option Bytes :=
  if ct.length < 16 then none
  else if ct.take 16 = sbTag key nonce (ct.drop 16) then
    some (sbDecryptFrom key nonce 0 (ct.drop 16))
  else none

/-! ## Constants of `appIdentity.js` and friends -/

/-- `ENC_KEY_ED25519`. -/
def ENC_KEY_ED25519 : String := "nm.identity.ed25519"
/-- `ENC_KEY_X25519`. -/
def ENC_KEY_X25519 : String := "nm.identity.x25519"
/-- `ENC_KEY_CREATION_DATE`. -/
def ENC_KEY_CREATION_DATE : String := "nm.identity.creationDate"
/-- `ENC_KEY_CLIENT_DATA`. -/
def ENC_KEY_CLIENT_DATA : String := "nm.client.data"
/-- `ENC_KEY_PAIRING_SECRET`. -/
def ENC_KEY_PAIRING_SECRET : String := "nm.identity.pairingSecret"

/-- `PAIRING_STATES.PENDING` (from `constants/pairing.js`, in the sources). -/
def PENDING : String := "PENDING"
/-- `PAIRING_STATES.CONFIRMED` (from `constants/pairing.js`, in the sources). -/
def CONFIRMED : String := "CONFIRMED"

/-- Modelled from the spec: `protocolConstants.js` is not under `src/`;
spec section 4.5 gives `PROTOCOL_TAGS.CLIENT_FINISH =
"pearpass/client-finish/v1"`. -/
def CLIENT_FINISH : String := "pearpass/client-finish/v1"

/-! ## The vault client (external, spec section 6 contract) -/

/-- `client.encryptionGet(key).catch(() => null)`: while locked the read
rejects and the catch turns it into null; otherwise the stored string. -/
def encryptionGetRaw (st : WorldState) (key : String) : Option String :=
  if st.locked then none else alistGet st.vault key

/-- `normalizeEncryptionGet` from `appIdentity.js`, composed with the get:
null stays null and the empty string collapses to null (`val || null`). -/
def normalizeEncryptionGet (v : Option String) : Option String :=
  match v with
  | none => none
  | some s => if s = "" then none else some s

/-- The read-and-normalize composition the source performs at each call
site: `normalizeEncryptionGet(await client.encryptionGet(key).catch(() => null))`. -/
def readNorm (st : WorldState) (key : String) : Option String :=
  normalizeEncryptionGet (encryptionGetRaw st key)

/-- `client.encryptionAdd(key, value)`: fails while the vault is locked. -/
def encryptionAdd (st : WorldState) (k v : String) : Except Err Unit × WorldState :=
  if st.locked then (.error .kvError, st)
  else (.ok (), { st with vault := alistPut st.vault k v })

/-- JS falsy test for a nullable string (`!x`): null/undefined or empty. -/
def isFalsyOptStr : Option String → Bool
  | none => true
  | some s => s = ""

/-! ## Mini JSON (flat objects with unescaped string values — the only
shape `appIdentity.js` ever serializes under `peer.data`) -/

/-- `JSON.stringify` of a flat string-valued object, insertion order. -/
def jsonStringifyFlat (l : List (String × String)) : String :=
  "\x7b" ++ String.intercalate ","
      (l.map (fun p => "\"" ++ p.1 ++ "\":\"" ++ p.2 ++ "\"")) ++ "\x7d"

/-- Skip JSON whitespace. -/
def skipWs : List Char → List Char
  | c :: cs => if c = ' ' ∨ c = '\n' ∨ c = '\t' ∨ c = '\r' then skipWs cs else c :: cs
  | [] => []

/-- Scan to the closing quote of a string token (no escape handling —
the serialized values here are base64 and state names). -/
def takeUntilQuote : List Char → Option (List Char × List Char)
  | [] => none
  | c :: cs =>
      if c = '"' then some ([], cs)
      else match takeUntilQuote cs with
        | some (s, rest) => some (c :: s, rest)
        | none => none

/-- Parse `"k":"v"` pairs separated by commas up to the closing brace. -/
def parseFlatPairs : Nat → List Char → Option (List (String × String) × List Char)
  | 0, _ => none
  | fuel + 1, cs =>
      match skipWs cs with
      | '"' :: cs1 =>
          match takeUntilQuote cs1 with
          | none => none
          | some (k, cs2) =>
              match skipWs cs2 with
              | ':' :: cs3 =>
                  match skipWs cs3 with
                  | '"' :: cs4 =>
                      match takeUntilQuote cs4 with
                      | none => none
                      | some (v, cs5) =>
                          match skipWs cs5 with
                          | ',' :: cs6 =>
                              match parseFlatPairs fuel cs6 with
                              | some (rest, cs7) =>
                                  some ((String.mk k, String.mk v) :: rest, cs7)
                              | none => none
                          | '\x7d' :: cs6 => some ([(String.mk k, String.mk v)], cs6)
                          | _ => none
                  | _ => none
              | _ => none
      | _ => none

/-- Model of `JSON.parse` restricted to flat string-valued objects (what
this module writes); anything else parses to null, which downstream code
treats exactly like a parse failure. -/
def jsonParseFlat (s : String) : Option (List (String × String)) :=
  match skipWs s.toList with
  | '\x7b' :: cs =>
      match skipWs cs with
      | '\x7d' :: cs2 => if skipWs cs2 = [] then some [] else none
      | _ =>
          match parseFlatPairs s.length cs with
          | some (l, rest) => if skipWs rest = [] then some l else none
          | none => none
  | _ => none

/-- `obj?.field || null` on a parsed flat object. -/
def jsonFieldOrNull (d : Option (List (String × String))) (k : String) : Option String :=
  match d with
  | none => none
  | some l =>
      match alistGet l k with
      | none => none
      | some v => if v = "" then none else some v

/-! ## `appIdentity.js`: stateful operations

Each JS async function becomes `WorldState → Except Err α × WorldState`;
the state is returned also on error because a JS throw does not roll
back side effects already performed. -/

/-- The public part of the identity that `getOrCreateIdentity` returns. -/
structure IdentityPublic where
  ed25519PublicKey : String
  x25519PublicKey : String
  creationDate : String
  deriving DecidableEq, Repr

/-- `getOrCreatePairingSecret`: load the pairing secret, rejecting a
persisted value that does not decode to 32 bytes; otherwise generate
32 random bytes and persist them, converting a write failure into
`PairingSecretPersistenceFailed`. -/
def getOrCreatePairingSecret (st : WorldState) : Except Err String × WorldState :=
  match readNorm st ENC_KEY_PAIRING_SECRET with
  | some s =>
      if (fromBase64 s).length ≠ 32 then (.error .invalidPairingSecret, st)
      else (.ok s, st)
  | none =>
      let secretBytes := freshBytes st.rng 32
      let st1 := { st with rng := st.rng + 1 }
      let b64 := toBase64 secretBytes
      match encryptionAdd st1 ENC_KEY_PAIRING_SECRET b64 with
      | (.ok _, st2) => (.ok b64, st2)
      | (.error _, st2) => (.error .pairingSecretPersistenceFailed, st2)

/-- `ensureEncryptionInitialized`: status check, then init if needed.
The modelled client's status call answers `{status: encInitialized}` and
its init call succeeds, so the function never fails (all its failure
handling is logging). -/
def ensureEncryptionInitialized (st : WorldState) : WorldState :=
  if st.encInitialized then st else { st with encInitialized := true }

/-- `generateAndPersistIdentity`: fresh Ed25519 and X25519 keypairs, each
persisted as `pub ‖ priv` base64; any failed write keeps the whole
identity in the in-memory cache instead.  Always returns the public
fields. -/
def generateAndPersistIdentity (st : WorldState) : Except Err IdentityPublic × WorldState :=
  let edPub := freshBytes st.rng 32
  let edSk := freshBytes (st.rng + 1) 64
  let xPub := freshBytes (st.rng + 2) 32
  let xSk := freshBytes (st.rng + 3) 32
  let st1 := { st with rng := st.rng + 4, keygenCalls := st.keygenCalls + 1 }
  let creationDate := st1.now
  let (r1, st2) := encryptionAdd st1 ENC_KEY_ED25519 (toBase64 (edPub ++ edSk))
  let (r2, st3) := encryptionAdd st2 ENC_KEY_X25519 (toBase64 (xPub ++ xSk))
  let (r3, st4) := encryptionAdd st3 ENC_KEY_CREATION_DATE creationDate
  let persisted := r1.isOk && r2.isOk && r3.isOk
  let st5 :=
    if persisted then st4
    else { st4 with memIdentity := some ⟨edPub, edSk, xPub, xSk, creationDate⟩ }
  (.ok ⟨toBase64 edPub, toBase64 xPub, creationDate⟩, st5)

/-- `getOrCreateIdentity`: ensure the store is initialized, best-effort
create the pairing secret (errors swallowed), then load the two key
blobs; fall back to the memory cache, else generate; else decode the
blobs and return the public halves. -/
def getOrCreateIdentity (st : WorldState) : Except Err IdentityPublic × WorldState :=
  let st1 := ensureEncryptionInitialized st
  -- `try { await getOrCreatePairingSecret(client) } catch \x7b\x7d`
  let st2 := (getOrCreatePairingSecret st1).2
  let edBlob := readNorm st2 ENC_KEY_ED25519
  let xBlob := readNorm st2 ENC_KEY_X25519
  let creationDate := readNorm st2 ENC_KEY_CREATION_DATE
  match edBlob, xBlob with
  | some ed, some x =>
      (.ok ⟨toBase64 ((fromBase64 ed).take 32), toBase64 ((fromBase64 x).take 32),
            creationDate.getD st2.now⟩, st2)
  | _, _ =>
      match st2.memIdentity with
      | some mem =>
          (.ok ⟨toBase64 mem.ed25519PublicKeyBytes, toBase64 mem.x25519PublicKeyBytes,
                if mem.creationDate = "" then st2.now else mem.creationDate⟩, st2)
      | none => generateAndPersistIdentity st2

/-- `getPairingToken`: pairing secret, then the code. -/
def getPairingToken (ed25519PublicKeyB64 : String) (st : WorldState) :
    Except Err String × WorldState :=
  match getOrCreatePairingSecret st with
  | (.ok secret, st1) => (.ok (getPairingCode ed25519PublicKeyB64 secret), st1)
  | (.error e, st1) => (.error e, st1)

/-- `verifyPairingToken`: falsy input is `false`; otherwise compare
case-insensitively against the expected code. -/
def verifyPairingToken (ed25519PublicKeyB64 userProvidedToken : String)
    (st : WorldState) : Except Err Bool × WorldState :=
  if userProvidedToken = "" then (.ok false, st)
  else
    match getPairingToken ed25519PublicKeyB64 st with
    | (.ok expected, st1) =>
        (.ok (jsToUpperCase userProvidedToken = jsToUpperCase expected), st1)
    | (.error e, st1) => (.error e, st1)

/-- The JS nullable client handle: handlers in `SecurityHandlers.js` call
`getClientIdentityPublicKey()` with no argument, so the parameter inside
is `undefined`. -/
inductive ClientArg
  | passed
  | undef
  deriving DecidableEq, Repr

/-- `getClientData`: read and `JSON.parse` the `nm.client.data` blob; a
missing/empty blob or a parse failure is null.  Member access
`client.encryptionGet` on an `undefined` client throws a TypeError. -/
def getClientData (c : ClientArg) (st : WorldState) :
    Except Err (Option (List (String × String))) × WorldState :=
  match c with
  | .undef => (.error .typeError, st)
  | .passed =>
      match readNorm st ENC_KEY_CLIENT_DATA with
      | none => (.ok none, st)
      | some s => (.ok (jsonParseFlat s), st)

/-- `getClientIdentityPublicKey`: `data?.publicKey || null`. -/
def getClientIdentityPublicKey (c : ClientArg) (st : WorldState) :
    Except Err (Option String) × WorldState :=
  match getClientData c st with
  | (.ok d, st1) => (.ok (jsonFieldOrNull d "publicKey"), st1)
  | (.error e, st1) => (.error e, st1)

/-- `getClientPairingState`: `data?.pairingState || null`. -/
def getClientPairingState (c : ClientArg) (st : WorldState) :
    Except Err (Option String) × WorldState :=
  match getClientData c st with
  | (.ok d, st1) => (.ok (jsonFieldOrNull d "pairingState"), st1)
  | (.error e, st1) => (.error e, st1)

/-- `setClientIdentityPublicKey`: store
`{"publicKey": pk, "pairingState": state}` (the JS parameter `state`
defaults to `PENDING`; call sites that rely on the default pass
`PENDING` here explicitly).  Never touches `localStorage`. -/
def setClientIdentityPublicKey (pk state : String) (st : WorldState) :
    Except Err Unit × WorldState :=
  if pk = "" then (.error .missingClientPublicKey, st)
  else
    match encryptionAdd st ENC_KEY_CLIENT_DATA
        (jsonStringifyFlat [("publicKey", pk), ("pairingState", state)]) with
    | (.ok _, st1) => (.ok (), st1)
    | (.error e, st1) => (.error e, st1)

/-- `confirmClientPairing`: require a stored record with a (non-falsy)
`publicKey`; require it to equal the argument; then write the key to the
`localStorage` cache and re-store the record with `pairingState`
`CONFIRMED` (spread keeps the other fields and their order). -/
def confirmClientPairing (clientEd25519PublicKeyB64 : String) (st : WorldState) :
    Except Err Unit × WorldState :=
  match getClientData .passed st with
  | (.error e, st1) => (.error e, st1)
  | (.ok d, st1) =>
      match jsonFieldOrNull d "publicKey" with
      | none => (.error .noPendingPairing, st1)
      | some p =>
          if p ≠ clientEd25519PublicKeyB64 then (.error .clientKeyMismatch, st1)
          else
            let st2 := { st1 with lsClientPub := some clientEd25519PublicKeyB64 }
            match d with
            | none => (.error .noPendingPairing, st2)
            | some l =>
                match encryptionAdd st2 ENC_KEY_CLIENT_DATA
                    (jsonStringifyFlat (alistPut l "pairingState" CONFIRMED)) with
                | (.ok _, st3) => (.ok (), st3)
                | (.error e, st3) => (.error e, st3)

/-! ## The session store

Modelled from the spec: `sessionStore.js` is repository code not present
under `src/` (only its importers are).  Spec section 4.4: an in-memory
map `sessionId → Session` with `create`/`get`/`close`/`clearAll`,
`sessionId = hex(randomBytes(16))`, counters starting at 0, no
persistence; `concatBytes` is plain concatenation. -/

/-- `createSession(key, transcript)`: fresh hex session id, zeroed
counters, unverified. -/
def createSession (key transcript : Bytes) (st : WorldState) : String × WorldState :=
  let sid := bytesHexLower (freshBytes st.rng 16)
  (sid, { st with rng := st.rng + 1,
                  sessions := alistPut st.sessions sid ⟨key, transcript, 0, 0, false⟩ })

/-- `getSession(sessionId)`. -/
def getSession (st : WorldState) (sid : String) : Option Session :=
  alistGet st.sessions sid

/-- `closeSession(sessionId)`. -/
def closeSession (st : WorldState) (sid : String) : WorldState :=
  { st with sessions := alistRemove st.sessions sid }

/-- `clearAllSessions()`: wipe the map, return how many were live. -/
def clearAllSessions (st : WorldState) : Nat × WorldState :=
  (st.sessions.length, { st with sessions := [] })

/-- `concatBytes`. -/
def concatBytes (a b : Bytes) : Bytes := a ++ b

/-- `resetIdentity`: clear all sessions, blank the five vault keys (each
write's failure swallowed), clear the `localStorage` cache and the memory
cache, then mint a fresh identity via `getOrCreateIdentity`. -/
def resetIdentity (st : WorldState) : Except Err IdentityPublic × WorldState :=
  let st1 := (clearAllSessions st).2
  let st2 := (encryptionAdd st1 ENC_KEY_ED25519 "").2
  let st3 := (encryptionAdd st2 ENC_KEY_X25519 "").2
  let st4 := (encryptionAdd st3 ENC_KEY_CREATION_DATE "").2
  let st5 := (encryptionAdd st4 ENC_KEY_CLIENT_DATA "").2
  let st6 := (encryptionAdd st5 ENC_KEY_PAIRING_SECRET "").2
  let st7 := { st6 with lsClientPub := none }
  let st8 := { st7 with memIdentity := none }
  getOrCreateIdentity st8

/-! ## `sessionManager.js` (the unnamed session-manager source file) -/

/-- What `encryptWithSession` returns. -/
structure EncryptResult where
  nonceB64 : String
  ciphertextB64 : String
  seq : Nat
  deriving DecidableEq, Repr

/-- `encryptWithSession`: look the session up, draw a fresh 24-byte
nonce, secretbox-seal with the session key, bump `sendSeq` and return it
with the encoded nonce and ciphertext. -/
def encryptWithSession (sessionId : String) (plaintext : Bytes) (st : WorldState) :
    Except Err EncryptResult × WorldState :=
  match getSession st sessionId with
  | none => (.error .sessionNotFound, st)
  | some session =>
      let nonce := freshBytes st.rng 24
      let st1 := { st with rng := st.rng + 1 }
      let ciphertext := secretboxSeal session.key nonce plaintext
      let seq := session.sendSeq + 1
      (.ok ⟨toBase64 nonce, toBase64 ciphertext, seq⟩,
       { st1 with sessions :=
           alistPut st1.sessions sessionId { session with sendSeq := seq } })

/-- `decryptWithSession`: look the session up, then
`new Uint8Array(ciphertext.length - MACBYTES)` (a RangeError when the
ciphertext is shorter than the 16-byte MAC), then secretbox-open; an
authentication failure raises `DecryptFailed`.  No session is closed and
no sequence number is touched here. -/
def decryptWithSession (sessionId : String) (nonce ciphertext : Bytes) (st : WorldState) :
    Except Err Bytes × WorldState :=
  match getSession st sessionId with
  | none => (.error .sessionNotFound, st)
  | some session =>
      if ciphertext.length < 16 then (.error .rangeError, st)
      else
        match secretboxOpen session.key nonce ciphertext with
        | none => (.error .decryptFailed, st)
        | some plaintext => (.ok plaintext, st)

/-- `recordIncomingSeq`: session lookup, the
`typeof seq !== 'number' || !Number.isFinite(seq)` guard, the
`seq <= session.lastRecvSeq` replay guard, then `lastRecvSeq = seq`. -/
def recordIncomingSeq (sessionId : String) (seq : JSNum) (st : WorldState) :
    Except Err Unit × WorldState :=
  match getSession st sessionId with
  | none => (.error .sessionNotFound, st)
  | some session =>
      match seq with
      | .notNum => (.error .invalidSeq, st)
      | .nan => (.error .invalidSeq, st)
      | .posInf => (.error .invalidSeq, st)
      | .negInf => (.error .invalidSeq, st)
      | .num q =>
          if q ≤ session.lastRecvSeq then (.error .replayDetected, st)
          else
            let updated := { session with lastRecvSeq := q }
            (.ok (), { st with sessions := alistPut st.sessions sessionId updated })

/-- What `beginHandshake` returns. -/
structure BeginHandshakeResult where
  hostEphemeralPubB64 : String
  signatureB64 : String
  sessionId : String
  deriving DecidableEq, Repr

/-- The ephemeral-keys-and-session tail shared by `beginHandshake` and
`finalizeHandshakeWithMemoryIdentity`: generate an ephemeral X25519 pair,
ECDH with the extension's ephemeral key, sign the transcript
`hostEph ‖ extEph ‖ clientEdPub` with the given Ed25519 secret key, and
create the session keyed by the shared secret. -/
def handshakeTail (edPrivateKey clientPublicKeyBytes : Bytes)
    (extensionEphemeralPublicKeyB64 : String) (st : WorldState) :
    Except Err BeginHandshakeResult × WorldState :=
  let hostEphSk := freshBytes st.rng 32
  let hostEphPub := freshBytes (st.rng + 1) 32
  let st1 := { st with rng := st.rng + 2 }
  let extEphPub := fromBase64 extensionEphemeralPublicKeyB64
  let sharedSecret := scalarmult hostEphSk extEphPub
  let transcript := concatBytes (concatBytes hostEphPub extEphPub) clientPublicKeyBytes
  let signature := edSign edPrivateKey transcript
  let (sid, st2) := createSession sharedSecret transcript st1
  (.ok ⟨toBase64 hostEphPub, toBase64 signature, sid⟩, st2)

/-- `beginHandshake`: ensure identity, require the pinned client key
(this call site passes the client correctly), load the Ed25519 blob from
the vault (falling back to the memory identity, else
`IdentityKeysUnavailable`), then run the ephemeral handshake tail. -/
def beginHandshake (extensionEphemeralPublicKeyB64 : String) (st : WorldState) :
    Except Err BeginHandshakeResult × WorldState :=
  match getOrCreateIdentity st with
  | (.error e, st1) => (.error e, st1)
  | (.ok _, st1) =>
      match getClientIdentityPublicKey .passed st1 with
      | (.error e, st2) => (.error e, st2)
      | (.ok none, st2) => (.error .clientNotPaired, st2)
      | (.ok (some clientPubB64), st2) =>
          let clientPublicKeyBytes := fromBase64 clientPubB64
          let edBlob := encryptionGetRaw st2 ENC_KEY_ED25519
          let xBlob := encryptionGetRaw st2 ENC_KEY_X25519
          if isFalsyOptStr edBlob || isFalsyOptStr xBlob then
            match st2.memIdentity with
            | some mem =>
                handshakeTail mem.ed25519PrivateKeyBytes clientPublicKeyBytes
                  extensionEphemeralPublicKeyB64 st2
            | none => (.error .identityKeysUnavailable, st2)
          else
            let edBuffer := fromBase64 (edBlob.getD "")
            let ed25519PrivateKeyBytes := (edBuffer.drop 32).take 64
            handshakeTail ed25519PrivateKeyBytes clientPublicKeyBytes
              extensionEphemeralPublicKeyB64 st2

/-! ## `SecurityHandlers.js` -/

/-- `{ ok: true }`. -/
structure OkResult where
  ok : Bool
  deriving DecidableEq, Repr

/-- `nmGetAppIdentity`'s response. -/
structure IdentityResponse where
  ed25519PublicKey : String
  x25519PublicKey : String
  fingerprint : String
  deriving DecidableEq, Repr

/-- `nmGetAppIdentity(params)`: require the token and the client key,
build/load the identity, verify the token — and then call
`getClientIdentityPublicKey()` **without** `this.client` (the source
omits the argument), which throws a TypeError before the already-paired
check, the `setClientIdentityPublicKey` write, or the response can
happen.  The remainder is embedded faithfully all the same. -/
def nmGetAppIdentity (pairingToken clientEd25519PublicKeyB64 : String) (st : WorldState) :
    Except Err IdentityResponse × WorldState :=
  if pairingToken = "" then (.error .pairingTokenRequired, st)
  else if clientEd25519PublicKeyB64 = "" then (.error .clientPublicKeyRequired, st)
  else
    match getOrCreateIdentity st with
    | (.error e, st1) => (.error e, st1)
    | (.ok id, st1) =>
        match verifyPairingToken id.ed25519PublicKey pairingToken st1 with
        | (.error e, st2) => (.error e, st2)
        | (.ok false, st2) => (.error .invalidPairingToken, st2)
        | (.ok true, st2) =>
            match getClientIdentityPublicKey .undef st2 with
            | (.error e, st3) => (.error e, st3)
            | (.ok existing, st3) =>
                match existing with
                | some p =>
                    if p ≠ clientEd25519PublicKeyB64 then
                      (.error .clientAlreadyPaired, st3)
                    else
                      match setClientIdentityPublicKey clientEd25519PublicKeyB64 PENDING st3 with
                      | (.error e, st4) => (.error e, st4)
                      | (.ok _, st4) =>
                          (.ok ⟨id.ed25519PublicKey, id.x25519PublicKey,
                                getFingerprint id.ed25519PublicKey⟩, st4)
                | none =>
                    match setClientIdentityPublicKey clientEd25519PublicKeyB64 PENDING st3 with
                    | (.error e, st4) => (.error e, st4)
                    | (.ok _, st4) =>
                        (.ok ⟨id.ed25519PublicKey, id.x25519PublicKey,
                              getFingerprint id.ed25519PublicKey⟩, st4)

/-- `nmBeginHandshake(params)`: the enabled-flag gate, then the pinned-key
check — again via `getClientIdentityPublicKey()` with no client argument —
then the parameter check, then `beginHandshake`. -/
def nmBeginHandshake (extEphemeralPubB64 : String) (st : WorldState) :
    Except Err BeginHandshakeResult × WorldState :=
  if st.nmEnabled = false then (.error .nativeMessagingDisabled, st)
  else
    match getClientIdentityPublicKey .undef st with
    | (.error e, st1) => (.error e, st1)
    | (.ok none, st1) => (.error .notPaired, st1)
    | (.ok (some _), st1) =>
        if extEphemeralPubB64 = "" then (.error .missingEphemeralPublicKey, st1)
        else beginHandshake extEphemeralPubB64 st1

/-- `nmFinishHandshake(params)`: parameter checks, session lookup,
idempotence on a verified session; then the pinned-key load — via
`getClientIdentityPublicKey()` with no client argument — the length and
transcript checks, and signature verification over
`CLIENT_FINISH ‖ sessionId ‖ transcript`.  Only the
signature-verification failure closes the session. -/
def nmFinishHandshake (sessionId clientSigB64 : String) (st : WorldState) :
    Except Err OkResult × WorldState :=
  if sessionId = "" then (.error .missingSessionId, st)
  else if clientSigB64 = "" then (.error .missingClientSignature, st)
  else
    match getSession st sessionId with
    | none => (.error .sessionNotFound, st)
    | some session =>
        if session.clientVerified then (.ok ⟨true⟩, st)
        else
          match getClientIdentityPublicKey .undef st with
          | (.error e, st1) => (.error e, st1)
          | (.ok none, st1) => (.error .clientNotPaired, st1)
          | (.ok (some clientPubB64), st1) =>
              let clientPubBytes := fromBase64 clientPubB64
              let sigBytes := fromBase64 clientSigB64
              if clientPubBytes.length ≠ 32 then (.error .invalidClientPublicKey, st1)
              else if sigBytes.length ≠ 64 then (.error .invalidClientSignature, st1)
              else if session.transcript.length = 0 then (.error .invalidTranscript, st1)
              else
                let clientTranscript :=
                  concatBytes (concatBytes (strBytes CLIENT_FINISH) (strBytes sessionId))
                    session.transcript
                if edVerify sigBytes clientTranscript clientPubBytes then
                  let verified := { session with clientVerified := true }
                  (.ok ⟨true⟩,
                   { st1 with sessions := alistPut st1.sessions sessionId verified })
                else (.error .clientSignatureInvalid, closeSession st1 sessionId)

/-- `nmCloseSession(params)`: parameter check, then close.  There is no
native-messaging-enabled gate in this handler. -/
def nmCloseSession (sessionId : String) (st : WorldState) :
    Except Err OkResult × WorldState :=
  if sessionId = "" then (.error .missingSessionId, st)
  else (.ok ⟨true⟩, closeSession st sessionId)

/-- `checkExtensionPairingStatus`'s response. -/
structure PairedResult where
  paired : Bool
  deriving DecidableEq, Repr

/-- `checkExtensionPairingStatus(params)`: the enabled-flag gate, the
parameter check, then the stored-key comparison — via
`getClientIdentityPublicKey()` with no client argument. -/
def checkExtensionPairingStatus (clientEd25519PublicKeyB64 : String) (st : WorldState) :
    Except Err PairedResult × WorldState :=
  if st.nmEnabled = false then (.error .nativeMessagingDisabled, st)
  else if clientEd25519PublicKeyB64 = "" then (.error .clientPublicKeyRequired, st)
  else
    match getClientIdentityPublicKey .undef st with
    | (.error e, st1) => (.error e, st1)
    | (.ok stored, st1) => (.ok ⟨stored = some clientEd25519PublicKeyB64⟩, st1)

/-- `nmResetPairing`'s response. -/
structure ResetResult where
  ok : Bool
  clearedSessions : Nat
  newIdentity : IdentityPublic
  deriving DecidableEq, Repr

/-- `nmResetPairing()`: clear all sessions, rotate the identity via
`resetIdentity`, and return the new public fields.  There is no
native-messaging-enabled gate in this handler. -/
def nmResetPairing (st : WorldState) : Except Err ResetResult × WorldState :=
  let (cleared, st1) := clearAllSessions st
  match resetIdentity st1 with
  | (.ok newId, st2) => (.ok ⟨true, cleared, newId⟩, st2)
  | (.error e, st2) => (.error e, st2)



/-! ## Verification views

Read-only abbreviations of reads the embedded code performs, used to
state theorems; each is definitionally the read the source does. -/

/-- The normalized Ed25519-blob read (`normalizeEncryptionGet` of the
`nm.identity.ed25519` get). -/
def edRead (st : WorldState) : Option String :=
  readNorm st ENC_KEY_ED25519

/-- The normalized X25519-blob read. -/
def xRead (st : WorldState) : Option String :=
  readNorm st ENC_KEY_X25519

/-- The parsed peer record, as `getClientData` produces it when the
client is passed. -/
def clientDataView (st : WorldState) : Option (List (String × String)) :=
  match readNorm st ENC_KEY_CLIENT_DATA with
  | none => none
  | some s => jsonParseFlat s

/-- The stored peer public key (`data?.publicKey || null`). -/
def storedClientPk (st : WorldState) : Option String :=
  jsonFieldOrNull (clientDataView st) "publicKey"

/-- The public identity a read-only load would produce: decoded blobs
when both are present, else the memory cache, else nothing. -/
def identityPublicView (st : WorldState) : Option (String × String) :=
  match edRead st, xRead st with
  | some ed, some x =>
      some (toBase64 ((fromBase64 ed).take 32), toBase64 ((fromBase64 x).take 32))
  | _, _ =>
      match st.memIdentity with
      | some mem =>
          some (toBase64 mem.ed25519PublicKeyBytes, toBase64 mem.x25519PublicKeyBytes)
      | none => none


-- Results of embedded operations need decidable equality so concrete
-- runs can be checked by `decide`.
deriving instance DecidableEq for Except

/-! ## Concrete fixtures for witnesses and counterexamples -/

/-- A fresh-install world: unlocked, initialized, empty vault, no peer,
no sessions, native messaging enabled. -/
def baseState : WorldState :=
  { vault := [], locked := false, encInitialized := true, memIdentity := none,
    lsClientPub := none, sessions := [], nmEnabled := true, rng := 0,
    keygenCalls := 0, now := "2024-01-01T00:00:00.000Z" }

/-- A live, unverified session as `createSession` would build it. -/
def demoSession : Session :=
  { key := List.replicate 32 9, transcript := List.replicate 96 1,
    sendSeq := 0, lastRecvSeq := 0, clientVerified := false }

/-- `baseState` with one live session `"s1"`. -/
def sessionState : WorldState :=
  { baseState with sessions := [("s1", demoSession)] }

/-- `sessionState` with native messaging disabled. -/
def disabledState : WorldState :=
  { sessionState with nmEnabled := false }

/-- `baseState` with persisted identity blobs (Ed25519 pub `0x01*32`,
sk `0x02*64`; X25519 pub `0x03*32`, sk `0x04*32`) and the pairing secret
`0x07*32`, all base64. -/
def identityState : WorldState :=
  { baseState with vault :=
      [(ENC_KEY_ED25519,
        "AQEBAQEBAQEBAQEBAQEBAQEBAQEBAQEBAQEBAQEBAQECAgICAgICAgICAgICAgICAgICAgICAgICAgICAgICAgICAgICAgICAgICAgICAgICAgICAgICAgICAgICAgIC"),
       (ENC_KEY_X25519,
        "AwMDAwMDAwMDAwMDAwMDAwMDAwMDAwMDAwMDAwMDAwMEBAQEBAQEBAQEBAQEBAQEBAQEBAQEBAQEBAQEBAQEBA=="),
       (ENC_KEY_PAIRING_SECRET, "BwcHBwcHBwcHBwcHBwcHBwcHBwcHBwcHBwcHBwcHBwc=")] }

/-- The public identity stored in `identityState`. -/
def identityStatePublic : IdentityPublic :=
  { ed25519PublicKey := "AQEBAQEBAQEBAQEBAQEBAQEBAQEBAQEBAQEBAQEBAQE=",
    x25519PublicKey := "AwMDAwMDAwMDAwMDAwMDAwMDAwMDAwMDAwMDAwMDAwM=",
    creationDate := "2024-01-01T00:00:00.000Z" }

/-- After pinning peer `"K"` on a fresh install. -/
def c7Pinned : WorldState := (setClientIdentityPublicKey "K" PENDING baseState).2

/-- After then confirming `"K"`. -/
def c7Confirmed : WorldState := (confirmClientPairing "K" c7Pinned).2

/-- After then pinning `"K"` again. -/
def c7Repinned : WorldState := (setClientIdentityPublicKey "K" PENDING c7Confirmed).2

/-- A world with a CONFIRMED peer record for `"K"`. -/
def confirmedPeerState : WorldState :=
  { baseState with vault :=
      [(ENC_KEY_CLIENT_DATA,
        jsonStringifyFlat [("publicKey", "K"), ("pairingState", CONFIRMED)])] }

/-- The result of sealing `[104, 105]` in session `"s1"`. -/
def c9Enc : Except Err EncryptResult × WorldState :=
  encryptWithSession "s1" [104, 105] sessionState

/-- The sealed frame from `c9Enc`. -/
def c9Res : EncryptResult :=
  match c9Enc.1 with
  | .ok r => r
  | .error _ => ⟨"", "", 0⟩

/-- The identity generated by the first `getOrCreateIdentity` on
`baseState` (checked by evaluation in the C8 witness). -/
def c8Identity : IdentityPublic :=
  { ed25519PublicKey := "kJeepayzusHIz9bd5Ovy+QAHDhUcIyoxOD9GTVRbYmk=",
    x25519PublicKey := "lp2kq7K5wMfO1dzj6vH4/wYNFBsiKTA3PkVMU1phaG8=",
    creationDate := "2024-01-01T00:00:00.000Z" }

/-- The state `recordIncomingSeq` leaves after accepting `q`: the same
world with the session's `lastRecvSeq` replaced. -/
def recordSuccessState (st : WorldState) (sid : String) (s : Session) (q : Rat) : WorldState :=
  { st with sessions := alistPut st.sessions sid (Session.mk s.key s.transcript s.sendSeq q s.clientVerified) }

/-! ## Association-list lemmas -/

/-- Replacing entries at key `k` does not affect lookups at `k' ≠ k`. -/
theorem alistGet_mapPut_other {β : Type} (l : List (String × β)) (k k' : String) (v : β)
    (h : k' ≠ k) :
    alistGet (l.map (fun p => if p.1 = k then (k, v) else p)) k' = alistGet l k' := by
  induction l with
  | nil => rfl
  | cons p rest ih =>
      by_cases hp : p.1 = k
      · have h1 : ¬ k = k' := fun hk => h hk.symm
        simp [alistGet, hp, h1, ih]
      · simp only [List.map_cons, if_neg hp]
        by_cases hp' : p.1 = k' <;> simp [alistGet, hp', ih]

/-- Replacing entries at a present key `k` makes lookup at `k` see the
new value. -/
theorem alistGet_mapPut_self {β : Type} (l : List (String × β)) (k : String) (v : β)
    (hany : l.any (fun p => p.1 = k) = true) :
    alistGet (l.map (fun p => if p.1 = k then (k, v) else p)) k = some v := by
  induction l with
  | nil => simp at hany
  | cons p rest ih =>
      by_cases hp : p.1 = k
      · simp [alistGet, hp]
      · have hrest : rest.any (fun p => p.1 = k) = true := by
          simp only [List.any_cons, Bool.or_eq_true, decide_eq_true_eq] at hany
          rcases hany with h | h
          · exact absurd h hp
          · simpa using h
        simp [alistGet, hp, ih hrest]

/-- Appending a `(k, v)` entry does not affect lookups at `k' ≠ k`. -/
theorem alistGet_append_single_other {β : Type} (l : List (String × β)) (k k' : String)
    (v : β) (h : k' ≠ k) : alistGet (l ++ [(k, v)]) k' = alistGet l k' := by
  induction l with
  | nil =>
      have h' : ¬ k = k' := fun hk => h hk.symm
      simp [alistGet, h']
  | cons p rest ih => by_cases hp : p.1 = k' <;> simp [alistGet, hp, ih]

/-- Appending a `(k, v)` entry to a list without `k` makes lookup at `k`
see it. -/
theorem alistGet_append_single_self {β : Type} (l : List (String × β)) (k : String) (v : β)
    (hnone : ¬ l.any (fun p => p.1 = k) = true) :
    alistGet (l ++ [(k, v)]) k = some v := by
  induction l with
  | nil => simp [alistGet]
  | cons p rest ih =>
      have hp : ¬ p.1 = k := fun hk => hnone (by simp [List.any_cons, hk])
      have hrest : ¬ rest.any (fun p => p.1 = k) = true := fun hk =>
        hnone (by simp [List.any_cons, hk])
      simp [alistGet, hp, ih hrest]

/-- Lookup after insert-or-replace at the same key. -/
theorem alistGet_put_self {β : Type} (l : List (String × β)) (k : String) (v : β) :
    alistGet (alistPut l k v) k = some v := by
  unfold alistPut
  split
  · exact alistGet_mapPut_self l k v (by assumption)
  · exact alistGet_append_single_self l k v (by assumption)

/-- Lookup after insert-or-replace at a different key. -/
theorem alistGet_put_other {β : Type} (l : List (String × β)) (k k' : String) (v : β)
    (h : k' ≠ k) : alistGet (alistPut l k v) k' = alistGet l k' := by
  unfold alistPut
  split
  · exact alistGet_mapPut_other l k k' v h
  · exact alistGet_append_single_other l k k' v h

/-- Lookup after delete at the same key. -/
theorem alistGet_remove_self {β : Type} (l : List (String × β)) (k : String) :
    alistGet (alistRemove l k) k = none := by
  unfold alistRemove
  induction l with
  | nil => rfl
  | cons p rest ih => by_cases hp : p.1 = k <;> simp_all [alistGet]

/-- Lookup after delete at a different key. -/
theorem alistGet_remove_other {β : Type} (l : List (String × β)) (k k' : String)
    (h : k' ≠ k) : alistGet (alistRemove l k) k' = alistGet l k' := by
  unfold alistRemove
  induction l with
  | nil => rfl
  | cons p rest ih =>
      by_cases hp : p.1 = k
      · have hp' : ¬ p.1 = k' := fun hk => h ((hk.symm.trans hp))
        simp_all [alistGet]
      · by_cases hp' : p.1 = k' <;> simp_all [alistGet]

/-! ## Base64 round-trip -/

/-- `(x * d + y) / d = x` when `y < d`. -/
theorem mulAddDiv (d x y : Nat) (hd : 0 < d) (hy : y < d) : (x * d + y) / d = x := by
  rw [Nat.mul_comm, Nat.add_comm, Nat.add_mul_div_left _ _ hd, Nat.div_eq_of_lt hy,
    Nat.zero_add]

/-- `(x * d + y) % d = y` when `y < d`. -/
theorem mulAddMod (d x y : Nat) (hy : y < d) : (x * d + y) % d = y := by
  rw [Nat.mul_comm, Nat.mul_add_mod, Nat.mod_eq_of_lt hy]

/-- Decoding inverts encoding on each 6-bit value. -/
theorem charSextet_sextetChar : ∀ n < 64, charSextet (sextetChar n) = n := by decide

/-- No 6-bit value encodes to the padding character. -/
theorem sextetChar_ne_pad : ∀ n < 64, sextetChar n ≠ '=' := by decide

/-- Decoding inverts encoding chunkwise, for genuine bytes. -/
theorem b64DecodeChunks_encodeChunks :
    ∀ bs : Bytes, bs.valid → b64DecodeChunks (b64EncodeChunks bs) = bs
  | [], _ => rfl
  | [b1], h => by
      have hb1 : b1 < 256 := h b1 (by simp)
      have h1 : b1 / 4 < 64 := by omega
      have h2 : b1 % 4 * 16 < 64 := by omega
      have e1 : (b1 % 4 * 16 + 0) / 16 = b1 % 4 := mulAddDiv 16 _ 0 (by omega) (by omega)
      simp only [Nat.add_zero] at e1
      simp only [b64EncodeChunks, b64DecodeChunks, if_pos rfl, if_true,
        charSextet_sextetChar _ h1, charSextet_sextetChar _ h2, e1,
        List.cons.injEq, and_true]
      omega
  | [b1, b2], h => by
      have hb1 : b1 < 256 := h b1 (by simp)
      have hb2 : b2 < 256 := h b2 (by simp)
      have h1 : b1 / 4 < 64 := by omega
      have h2 : b1 % 4 * 16 + b2 / 16 < 64 := by omega
      have h3 : b2 % 16 * 4 < 64 := by omega
      have e1 : (b1 % 4 * 16 + b2 / 16) / 16 = b1 % 4 := mulAddDiv 16 _ _ (by omega) (by omega)
      have e2 : (b1 % 4 * 16 + b2 / 16) % 16 = b2 / 16 := mulAddMod 16 _ _ (by omega)
      have e3 : (b2 % 16 * 4 + 0) / 4 = b2 % 16 := mulAddDiv 4 _ 0 (by omega) (by omega)
      simp only [Nat.add_zero] at e3
      simp only [b64EncodeChunks, b64DecodeChunks, if_neg (sextetChar_ne_pad _ h3),
        if_pos rfl, if_true, charSextet_sextetChar _ h1, charSextet_sextetChar _ h2,
        charSextet_sextetChar _ h3, e1, e2, e3, List.cons.injEq, and_true]
      constructor <;> omega
  | b1 :: b2 :: b3 :: rest, h => by
      have hb1 : b1 < 256 := h b1 (by simp)
      have hb2 : b2 < 256 := h b2 (by simp)
      have hb3 : b3 < 256 := h b3 (by simp)
      have h1 : b1 / 4 < 64 := by omega
      have h2 : b1 % 4 * 16 + b2 / 16 < 64 := by omega
      have h3 : b2 % 16 * 4 + b3 / 64 < 64 := by omega
      have h4 : b3 % 64 < 64 := by omega
      have e1 : (b1 % 4 * 16 + b2 / 16) / 16 = b1 % 4 := mulAddDiv 16 _ _ (by omega) (by omega)
      have e2 : (b1 % 4 * 16 + b2 / 16) % 16 = b2 / 16 := mulAddMod 16 _ _ (by omega)
      have e3 : (b2 % 16 * 4 + b3 / 64) / 4 = b2 % 16 := mulAddDiv 4 _ _ (by omega) (by omega)
      have e4 : (b2 % 16 * 4 + b3 / 64) % 4 = b3 / 64 := mulAddMod 4 _ _ (by omega)
      have ih : b64DecodeChunks (b64EncodeChunks rest) = rest :=
        b64DecodeChunks_encodeChunks rest (fun x hx => h x (by simp [hx]))
      cases rest with
      | nil =>
          simp only [b64EncodeChunks, b64DecodeChunks, if_true,
            if_neg (sextetChar_ne_pad _ h3), if_neg (sextetChar_ne_pad _ h4),
            charSextet_sextetChar _ h1, charSextet_sextetChar _ h2,
            charSextet_sextetChar _ h3, charSextet_sextetChar _ h4,
            e1, e2, e3, e4, List.cons.injEq, and_true]
          refine ⟨by omega, by omega, by omega⟩
      | cons r rs =>
          simp only [b64EncodeChunks] at ih ⊢
          simp only [b64DecodeChunks, if_neg (sextetChar_ne_pad _ h3),
            if_neg (sextetChar_ne_pad _ h4),
            charSextet_sextetChar _ h1, charSextet_sextetChar _ h2,
            charSextet_sextetChar _ h3, charSextet_sextetChar _ h4,
            e1, e2, e3, e4, List.cons.injEq]
          exact ⟨by omega, by omega, by omega, ih⟩

/-- `fromBase64` inverts `toBase64` on genuine bytes. -/
theorem fromBase64_toBase64 (bs : Bytes) (h : bs.valid) :
    fromBase64 (toBase64 bs) = bs :=
  b64DecodeChunks_encodeChunks bs h

/-- The modelled random bytes are genuine bytes. -/
theorem freshBytes_valid (seed n : Nat) : (freshBytes seed n).valid := by
  intro b hb
  simp only [freshBytes, List.mem_map] at hb
  obtain ⟨i, _, rfl⟩ := hb
  omega

/-- The modelled random byte strings have the requested length. -/
theorem freshBytes_length (seed n : Nat) : (freshBytes seed n).length = n := by
  simp [freshBytes]

/-! ## Secretbox round-trip -/

/-- Keystream decryption inverts keystream encryption, bytewise. -/
theorem sbDecryptFrom_sbEncryptFrom (key nonce : Bytes) :
    ∀ (i : Nat) (pt : Bytes), pt.valid →
      sbDecryptFrom key nonce i (sbEncryptFrom key nonce i pt) = pt
  | _, [], _ => rfl
  | i, b :: bs, h => by
      have hb : b < 256 := h b (by simp)
      have hk : sbKeystream key nonce i < 256 := by
        unfold sbKeystream; omega
      have ih := sbDecryptFrom_sbEncryptFrom key nonce (i + 1) bs
        (fun x hx => h x (by simp [hx]))
      simp only [sbEncryptFrom, sbDecryptFrom, ih, List.cons.injEq, and_true]
      omega

/-- The sealed body is made of genuine bytes. -/
theorem sbEncryptFrom_valid (key nonce : Bytes) :
    ∀ (i : Nat) (pt : Bytes), (sbEncryptFrom key nonce i pt).valid
  | _, [] => by intro b hb; simp [sbEncryptFrom] at hb
  | i, b :: bs => by
      intro x hx
      simp only [sbEncryptFrom, List.mem_cons] at hx
      rcases hx with rfl | hx
      · omega
      · exact sbEncryptFrom_valid key nonce (i + 1) bs x hx

/-- The sealed body has the plaintext's length. -/
theorem sbEncryptFrom_length (key nonce : Bytes) :
    ∀ (i : Nat) (pt : Bytes), (sbEncryptFrom key nonce i pt).length = pt.length
  | _, [] => rfl
  | i, b :: bs => by
      simp [sbEncryptFrom, sbEncryptFrom_length key nonce (i + 1) bs]

/-- The authentication tag is made of genuine bytes. -/
theorem sbTag_valid (key nonce body : Bytes) : (sbTag key nonce body).valid := by
  intro b hb
  simp only [sbTag, List.mem_map] at hb
  obtain ⟨i, _, rfl⟩ := hb
  omega

/-- The tag is 16 bytes. -/
theorem sbTag_length (key nonce body : Bytes) : (sbTag key nonce body).length = 16 := by
  simp [sbTag]

/-- Opening a sealed box returns the original plaintext. -/
theorem secretboxOpen_seal (key nonce pt : Bytes) (h : pt.valid) :
    secretboxOpen key nonce (secretboxSeal key nonce pt) = some pt := by
  unfold secretboxSeal secretboxOpen
  have htag := sbTag_length key nonce (sbEncryptFrom key nonce 0 pt)
  have hlen : (sbTag key nonce (sbEncryptFrom key nonce 0 pt)
      ++ sbEncryptFrom key nonce 0 pt).length =
      16 + (sbEncryptFrom key nonce 0 pt).length := by
    simp [htag]
  rw [if_neg (by omega), List.take_left' htag, List.drop_left' htag, if_pos rfl,
    sbDecryptFrom_sbEncryptFrom key nonce 0 pt h]

/-- Sealed ciphertexts are made of genuine bytes. -/
theorem secretboxSeal_valid (key nonce pt : Bytes) : (secretboxSeal key nonce pt).valid := by
  intro b hb
  unfold secretboxSeal at hb
  rcases List.mem_append.mp hb with h | h
  · exact sbTag_valid key nonce _ b h
  · exact sbEncryptFrom_valid key nonce 0 pt b h

/-- Sealing adds exactly the 16 MAC bytes. -/
theorem secretboxSeal_length (key nonce pt : Bytes) :
    (secretboxSeal key nonce pt).length = 16 + pt.length := by
  unfold secretboxSeal
  simp [sbTag_length, sbEncryptFrom_length]

/-! ## State-preservation lemmas -/

/-- `encryptionAdd` touches only the vault entry at its key. -/
theorem encryptionAdd_preserves (st : WorldState) (k v : String) :
    (encryptionAdd st k v).2.locked = st.locked ∧
    (encryptionAdd st k v).2.memIdentity = st.memIdentity ∧
    (encryptionAdd st k v).2.lsClientPub = st.lsClientPub ∧
    (encryptionAdd st k v).2.sessions = st.sessions ∧
    (encryptionAdd st k v).2.keygenCalls = st.keygenCalls ∧
    (encryptionAdd st k v).2.encInitialized = st.encInitialized ∧
    (encryptionAdd st k v).2.nmEnabled = st.nmEnabled ∧
    (encryptionAdd st k v).2.rng = st.rng ∧
    ∀ k', k' ≠ k → alistGet (encryptionAdd st k v).2.vault k' = alistGet st.vault k' := by
  unfold encryptionAdd
  split
  · exact ⟨rfl, rfl, rfl, rfl, rfl, rfl, rfl, rfl, fun _ _ => rfl⟩
  · exact ⟨rfl, rfl, rfl, rfl, rfl, rfl, rfl, rfl,
      fun k' hk => alistGet_put_other st.vault k k' v hk⟩

/-- `getOrCreatePairingSecret` touches only the pairing-secret vault
entry and the rng counter. -/
theorem getOrCreatePairingSecret_preserves (st : WorldState) :
    (getOrCreatePairingSecret st).2.locked = st.locked ∧
    (getOrCreatePairingSecret st).2.memIdentity = st.memIdentity ∧
    (getOrCreatePairingSecret st).2.lsClientPub = st.lsClientPub ∧
    (getOrCreatePairingSecret st).2.sessions = st.sessions ∧
    (getOrCreatePairingSecret st).2.keygenCalls = st.keygenCalls ∧
    (getOrCreatePairingSecret st).2.encInitialized = st.encInitialized ∧
    (getOrCreatePairingSecret st).2.nmEnabled = st.nmEnabled ∧
    ∀ k', k' ≠ ENC_KEY_PAIRING_SECRET →
      alistGet (getOrCreatePairingSecret st).2.vault k' = alistGet st.vault k' := by
  unfold getOrCreatePairingSecret
  split
  · split
    · exact ⟨rfl, rfl, rfl, rfl, rfl, rfl, rfl, fun _ _ => rfl⟩
    · exact ⟨rfl, rfl, rfl, rfl, rfl, rfl, rfl, fun _ _ => rfl⟩
  · rename_i hnone
    dsimp only
    split
    · rename_i r st2 heq
      have h2 : st2 = (encryptionAdd { st with rng := st.rng + 1 }
          ENC_KEY_PAIRING_SECRET (toBase64 (freshBytes st.rng 32))).2 :=
        (congrArg Prod.snd heq).symm
      obtain ⟨p1, p2, p3, p4, p5, p6, p7, _, p9⟩ :=
        encryptionAdd_preserves { st with rng := st.rng + 1 }
          ENC_KEY_PAIRING_SECRET (toBase64 (freshBytes st.rng 32))
      subst h2
      exact ⟨p1, p2, p3, p4, p5, p6, p7, p9⟩
    · rename_i r st2 heq
      have h2 : st2 = (encryptionAdd { st with rng := st.rng + 1 }
          ENC_KEY_PAIRING_SECRET (toBase64 (freshBytes st.rng 32))).2 :=
        (congrArg Prod.snd heq).symm
      obtain ⟨p1, p2, p3, p4, p5, p6, p7, _, p9⟩ :=
        encryptionAdd_preserves { st with rng := st.rng + 1 }
          ENC_KEY_PAIRING_SECRET (toBase64 (freshBytes st.rng 32))
      subst h2
      exact ⟨p1, p2, p3, p4, p5, p6, p7, p9⟩

/-- `ensureEncryptionInitialized` touches only the init flag. -/
theorem ensureEncryptionInitialized_preserves (st : WorldState) :
    (ensureEncryptionInitialized st).vault = st.vault ∧
    (ensureEncryptionInitialized st).locked = st.locked ∧
    (ensureEncryptionInitialized st).memIdentity = st.memIdentity ∧
    (ensureEncryptionInitialized st).lsClientPub = st.lsClientPub ∧
    (ensureEncryptionInitialized st).sessions = st.sessions ∧
    (ensureEncryptionInitialized st).keygenCalls = st.keygenCalls ∧
    (ensureEncryptionInitialized st).nmEnabled = st.nmEnabled ∧
    (ensureEncryptionInitialized st).now = st.now := by
  unfold ensureEncryptionInitialized
  split
  · exact ⟨rfl, rfl, rfl, rfl, rfl, rfl, rfl, rfl⟩
  · exact ⟨rfl, rfl, rfl, rfl, rfl, rfl, rfl, rfl⟩

/-- A normalized read is unchanged between states that agree on the lock
flag and on the vault entry at that key. -/
theorem readNorm_congr (st st' : WorldState) (k : String)
    (hl : st'.locked = st.locked)
    (hv : alistGet st'.vault k = alistGet st.vault k) :
    readNorm st' k = readNorm st k := by
  unfold readNorm encryptionGetRaw
  rw [hl, hv]

/-- The identity view is unchanged between states that agree on the two
blob reads and the memory cache. -/
theorem identityPublicView_congr (st st' : WorldState)
    (h1 : edRead st' = edRead st) (h2 : xRead st' = xRead st)
    (h3 : st'.memIdentity = st.memIdentity) :
    identityPublicView st' = identityPublicView st := by
  unfold identityPublicView
  rw [h1, h2, h3]

/-- Base64 of a nonempty byte string is a nonempty string. -/
theorem toBase64_ne_empty (b : Nat) (bs : Bytes) : toBase64 (b :: bs) ≠ "" := by
  intro h
  have hd := congrArg String.data h
  cases bs with
  | nil => simp [toBase64, b64EncodeChunks] at hd
  | cons b2 rest =>
      cases rest with
      | nil => simp [toBase64, b64EncodeChunks] at hd
      | cons b3 rest2 => simp [toBase64, b64EncodeChunks] at hd

/-- Validity distributes over append. -/
theorem Bytes.valid_append (a b : Bytes) (ha : a.valid) (hb : b.valid) :
    (a ++ b).valid := by
  intro x hx
  rcases List.mem_append.mp hx with h | h
  · exact ha x h
  · exact hb x h

/-- What `generateAndPersistIdentity` returns and does: a fresh keypair
(counted once), public halves returned, the identity view afterwards
showing exactly those public halves — via the vault when the writes
landed, via the memory cache when they failed — and all unrelated state
untouched. -/
theorem generateAndPersistIdentity_spec (st : WorldState) :
    (generateAndPersistIdentity st).1 =
      .ok ⟨toBase64 (freshBytes st.rng 32), toBase64 (freshBytes (st.rng + 2) 32), st.now⟩ ∧
    (generateAndPersistIdentity st).2.keygenCalls = st.keygenCalls + 1 ∧
    (generateAndPersistIdentity st).2.locked = st.locked ∧
    (generateAndPersistIdentity st).2.lsClientPub = st.lsClientPub ∧
    (generateAndPersistIdentity st).2.sessions = st.sessions ∧
    (generateAndPersistIdentity st).2.nmEnabled = st.nmEnabled ∧
    identityPublicView (generateAndPersistIdentity st).2 =
      some (toBase64 (freshBytes st.rng 32), toBase64 (freshBytes (st.rng + 2) 32)) ∧
    ∀ k', k' ≠ ENC_KEY_ED25519 → k' ≠ ENC_KEY_X25519 → k' ≠ ENC_KEY_CREATION_DATE →
      alistGet (generateAndPersistIdentity st).2.vault k' = alistGet st.vault k' := by
  by_cases hlock : st.locked = true
  · have hstate : generateAndPersistIdentity st =
        (.ok ⟨toBase64 (freshBytes st.rng 32), toBase64 (freshBytes (st.rng + 2) 32), st.now⟩,
         { vault := st.vault,
           locked := st.locked,
           encInitialized := st.encInitialized,
           memIdentity := some ⟨freshBytes st.rng 32, freshBytes (st.rng + 1) 64,
             freshBytes (st.rng + 2) 32, freshBytes (st.rng + 3) 32, st.now⟩,
           lsClientPub := st.lsClientPub,
           sessions := st.sessions,
           nmEnabled := st.nmEnabled,
           rng := st.rng + 4,
           keygenCalls := st.keygenCalls + 1,
           now := st.now }) := by
      unfold generateAndPersistIdentity encryptionAdd
      simp [hlock, Except.isOk, Except.toBool]
    rw [hstate]
    refine ⟨rfl, rfl, rfl, rfl, rfl, rfl, ?_, fun _ _ _ _ => rfl⟩
    unfold identityPublicView edRead xRead readNorm encryptionGetRaw normalizeEncryptionGet
    simp [hlock]
  · rw [Bool.not_eq_true] at hlock
    have hstate : generateAndPersistIdentity st =
        (.ok ⟨toBase64 (freshBytes st.rng 32), toBase64 (freshBytes (st.rng + 2) 32), st.now⟩,
         { vault := alistPut (alistPut (alistPut st.vault
             ENC_KEY_ED25519 (toBase64 (freshBytes st.rng 32 ++ freshBytes (st.rng + 1) 64)))
             ENC_KEY_X25519 (toBase64 (freshBytes (st.rng + 2) 32 ++ freshBytes (st.rng + 3) 32)))
             ENC_KEY_CREATION_DATE st.now,
           locked := st.locked,
           encInitialized := st.encInitialized,
           memIdentity := st.memIdentity,
           lsClientPub := st.lsClientPub,
           sessions := st.sessions,
           nmEnabled := st.nmEnabled,
           rng := st.rng + 4,
           keygenCalls := st.keygenCalls + 1,
           now := st.now }) := by
      unfold generateAndPersistIdentity encryptionAdd
      simp [hlock, Except.isOk, Except.toBool]
    have hEdPub := freshBytes_length st.rng 32
    have hXPub := freshBytes_length (st.rng + 2) 32
    have hEdValid : (freshBytes st.rng 32 ++ freshBytes (st.rng + 1) 64).valid :=
      Bytes.valid_append _ _ (freshBytes_valid _ _) (freshBytes_valid _ _)
    have hXValid : (freshBytes (st.rng + 2) 32 ++ freshBytes (st.rng + 3) 32).valid :=
      Bytes.valid_append _ _ (freshBytes_valid _ _) (freshBytes_valid _ _)
    rw [hstate]
    refine ⟨rfl, rfl, rfl, rfl, rfl, rfl, ?_, ?_⟩
    · unfold identityPublicView edRead xRead readNorm encryptionGetRaw
      simp only [hlock, if_false, reduceIte]
      have hED : alistGet (alistPut (alistPut (alistPut st.vault
            ENC_KEY_ED25519 (toBase64 (freshBytes st.rng 32 ++ freshBytes (st.rng + 1) 64)))
            ENC_KEY_X25519 (toBase64 (freshBytes (st.rng + 2) 32 ++ freshBytes (st.rng + 3) 32)))
            ENC_KEY_CREATION_DATE st.now) ENC_KEY_ED25519 =
          some (toBase64 (freshBytes st.rng 32 ++ freshBytes (st.rng + 1) 64)) := by
        rw [alistGet_put_other _ _ _ _ (by decide), alistGet_put_other _ _ _ _ (by decide),
          alistGet_put_self]
      have hX : alistGet (alistPut (alistPut (alistPut st.vault
            ENC_KEY_ED25519 (toBase64 (freshBytes st.rng 32 ++ freshBytes (st.rng + 1) 64)))
            ENC_KEY_X25519 (toBase64 (freshBytes (st.rng + 2) 32 ++ freshBytes (st.rng + 3) 32)))
            ENC_KEY_CREATION_DATE st.now) ENC_KEY_X25519 =
          some (toBase64 (freshBytes (st.rng + 2) 32 ++ freshBytes (st.rng + 3) 32)) := by
        rw [alistGet_put_other _ _ _ _ (by decide), alistGet_put_self]
      rw [hED, hX]
      have hne1 : toBase64 (freshBytes st.rng 32 ++ freshBytes (st.rng + 1) 64) ≠ "" := by
        have hsplit : freshBytes st.rng 32 ++ freshBytes (st.rng + 1) 64 =
            (freshBytes st.rng 32).headI ::
              ((freshBytes st.rng 32).tail ++ freshBytes (st.rng + 1) 64) := by
          cases h : freshBytes st.rng 32 with
          | nil => exact absurd (congrArg List.length h) (by simp [freshBytes_length])
          | cons a l => simp
        rw [hsplit]
        exact toBase64_ne_empty _ _
      have hne2 : toBase64 (freshBytes (st.rng + 2) 32 ++ freshBytes (st.rng + 3) 32) ≠ "" := by
        have hsplit : freshBytes (st.rng + 2) 32 ++ freshBytes (st.rng + 3) 32 =
            (freshBytes (st.rng + 2) 32).headI ::
              ((freshBytes (st.rng + 2) 32).tail ++ freshBytes (st.rng + 3) 32) := by
          cases h : freshBytes (st.rng + 2) 32 with
          | nil => exact absurd (congrArg List.length h) (by simp [freshBytes_length])
          | cons a l => simp
        rw [hsplit]
        exact toBase64_ne_empty _ _
      unfold normalizeEncryptionGet
      simp [hne1, hne2, fromBase64_toBase64 _ hEdValid, fromBase64_toBase64 _ hXValid,
        List.take_left' hEdPub, List.take_left' hXPub]
    · intro k' h1 h2 h3
      dsimp only
      rw [alistGet_put_other _ _ _ _ h3, alistGet_put_other _ _ _ _ h2,
        alistGet_put_other _ _ _ _ h1]

/-- The initialization and pairing-secret steps at the head of
`getOrCreateIdentity` change neither the identity reads nor any state a
claim observes (only the secret vault entry, the init flag and the rng). -/
theorem getOrCreateIdentity_pre (st : WorldState) :
    readNorm ((getOrCreatePairingSecret (ensureEncryptionInitialized st)).2)
      ENC_KEY_ED25519 = edRead st ∧
    readNorm ((getOrCreatePairingSecret (ensureEncryptionInitialized st)).2)
      ENC_KEY_X25519 = xRead st ∧
    (getOrCreatePairingSecret (ensureEncryptionInitialized st)).2.memIdentity =
      st.memIdentity ∧
    (getOrCreatePairingSecret (ensureEncryptionInitialized st)).2.keygenCalls =
      st.keygenCalls ∧
    (getOrCreatePairingSecret (ensureEncryptionInitialized st)).2.locked = st.locked ∧
    (getOrCreatePairingSecret (ensureEncryptionInitialized st)).2.lsClientPub =
      st.lsClientPub ∧
    (getOrCreatePairingSecret (ensureEncryptionInitialized st)).2.sessions = st.sessions ∧
    (getOrCreatePairingSecret (ensureEncryptionInitialized st)).2.nmEnabled =
      st.nmEnabled ∧
    identityPublicView ((getOrCreatePairingSecret (ensureEncryptionInitialized st)).2) =
      identityPublicView st ∧
    alistGet ((getOrCreatePairingSecret (ensureEncryptionInitialized st)).2).vault
      ENC_KEY_CLIENT_DATA = alistGet st.vault ENC_KEY_CLIENT_DATA := by
  obtain ⟨e1, e2, e3, e4, e5, e6, e7, e8⟩ :=
    ensureEncryptionInitialized_preserves st
  obtain ⟨p1, p2, p3, p4, p5, p6, p7, p8⟩ :=
    getOrCreatePairingSecret_preserves (ensureEncryptionInitialized st)
  have hl : (getOrCreatePairingSecret (ensureEncryptionInitialized st)).2.locked =
      st.locked := by rw [p1, e2]
  have hvED : alistGet ((getOrCreatePairingSecret (ensureEncryptionInitialized st)).2).vault
      ENC_KEY_ED25519 = alistGet st.vault ENC_KEY_ED25519 := by
    rw [p8 _ (by decide), e1]
  have hvX : alistGet ((getOrCreatePairingSecret (ensureEncryptionInitialized st)).2).vault
      ENC_KEY_X25519 = alistGet st.vault ENC_KEY_X25519 := by
    rw [p8 _ (by decide), e1]
  have hvC : alistGet ((getOrCreatePairingSecret (ensureEncryptionInitialized st)).2).vault
      ENC_KEY_CLIENT_DATA = alistGet st.vault ENC_KEY_CLIENT_DATA := by
    rw [p8 _ (by decide), e1]
  have hm : (getOrCreatePairingSecret (ensureEncryptionInitialized st)).2.memIdentity =
      st.memIdentity := by rw [p2, e3]
  have hEd : readNorm ((getOrCreatePairingSecret (ensureEncryptionInitialized st)).2)
      ENC_KEY_ED25519 = edRead st := readNorm_congr _ _ _ hl hvED
  have hX : readNorm ((getOrCreatePairingSecret (ensureEncryptionInitialized st)).2)
      ENC_KEY_X25519 = xRead st := readNorm_congr _ _ _ hl hvX
  refine ⟨hEd, hX, hm, by rw [p5, e6], hl, by rw [p3, e4], by rw [p4, e5],
    by rw [p7, e7], ?_, hvC⟩
  exact identityPublicView_congr st _ hEd hX hm

/-- When the identity view already shows public keys, `getOrCreateIdentity`
returns exactly them, generates nothing, and leaves the view unchanged. -/
theorem getOrCreateIdentity_view_some (st : WorldState) (e x : String)
    (h : identityPublicView st = some (e, x)) :
    ∃ d, (getOrCreateIdentity st).1 = .ok ⟨e, x, d⟩ ∧
      identityPublicView (getOrCreateIdentity st).2 = some (e, x) ∧
      (getOrCreateIdentity st).2.keygenCalls = st.keygenCalls := by
  obtain ⟨hEd, hX, hm, hk, _, _, _, _, hview, _⟩ := getOrCreateIdentity_pre st
  have horig := h
  unfold getOrCreateIdentity
  dsimp only
  rw [hEd, hX, hm]
  unfold identityPublicView at h
  rcases hEdv : edRead st with _ | ed
  · rw [hEdv] at h
    rcases hmv : st.memIdentity with _ | mem
    · rw [hmv] at h
      simp at h
    · rw [hmv] at h
      simp only [Option.some.injEq, Prod.mk.injEq] at h
      obtain ⟨he, hx⟩ := h
      exact ⟨if mem.creationDate = "" then
          (getOrCreatePairingSecret (ensureEncryptionInitialized st)).2.now
        else mem.creationDate,
        by simp [he, hx], by rw [hview]; exact horig, hk⟩
  · rcases hXv : xRead st with _ | xv
    · rw [hEdv, hXv] at h
      rcases hmv : st.memIdentity with _ | mem
      · rw [hmv] at h
        simp at h
      · rw [hmv] at h
        simp only [Option.some.injEq, Prod.mk.injEq] at h
        obtain ⟨he, hx⟩ := h
        exact ⟨if mem.creationDate = "" then
            (getOrCreatePairingSecret (ensureEncryptionInitialized st)).2.now
          else mem.creationDate,
          by simp [he, hx], by rw [hview]; exact horig, hk⟩
    · rw [hEdv, hXv] at h
      simp only [Option.some.injEq, Prod.mk.injEq] at h
      obtain ⟨he, hx⟩ := h
      exact ⟨(readNorm (getOrCreatePairingSecret (ensureEncryptionInitialized st)).2
          ENC_KEY_CREATION_DATE).getD
          (getOrCreatePairingSecret (ensureEncryptionInitialized st)).2.now,
        by simp [he, hx], by rw [hview]; exact horig, hk⟩

/-- When the identity view is empty, `getOrCreateIdentity` generates one
keypair and afterwards the view shows exactly the returned public keys. -/
theorem getOrCreateIdentity_view_none (st : WorldState)
    (h : identityPublicView st = none) :
    ∃ e x d, (getOrCreateIdentity st).1 = .ok ⟨e, x, d⟩ ∧
      identityPublicView (getOrCreateIdentity st).2 = some (e, x) ∧
      (getOrCreateIdentity st).2.keygenCalls = st.keygenCalls + 1 := by
  obtain ⟨hEd, hX, hm, hk, _, _, _, _, hview, _⟩ := getOrCreateIdentity_pre st
  unfold getOrCreateIdentity
  dsimp only
  rw [hEd, hX, hm]
  unfold identityPublicView at h
  obtain ⟨g1, g2, _, _, _, _, g7, _⟩ :=
    generateAndPersistIdentity_spec
      ((getOrCreatePairingSecret (ensureEncryptionInitialized st)).2)
  rcases hEdv : edRead st with _ | ed
  · rw [hEdv] at h
    rcases hmv : st.memIdentity with _ | mem
    · exact ⟨_, _, _, g1, g7, by rw [g2, hk]⟩
    · rw [hmv] at h
      simp at h
  · rcases hXv : xRead st with _ | xv
    · rw [hEdv, hXv] at h
      rcases hmv : st.memIdentity with _ | mem
      · exact ⟨_, _, _, g1, g7, by rw [g2, hk]⟩
      · rw [hmv] at h
        simp at h
    · rw [hEdv, hXv] at h
      simp at h

/-- The peer-record view is unchanged between states that agree on the
lock flag and the record's vault entry. -/
theorem clientDataView_congr (st st' : WorldState)
    (hl : st'.locked = st.locked)
    (hv : alistGet st'.vault ENC_KEY_CLIENT_DATA = alistGet st.vault ENC_KEY_CLIENT_DATA) :
    clientDataView st' = clientDataView st := by
  unfold clientDataView
  rw [readNorm_congr st st' ENC_KEY_CLIENT_DATA hl hv]

/-- With the client passed, `getClientData` is a pure read returning the
record view and the unchanged state. -/
theorem getClientData_passed (st : WorldState) :
    getClientData .passed st = (.ok (clientDataView st), st) := by
  unfold getClientData clientDataView
  rcases readNorm st ENC_KEY_CLIENT_DATA with _ | s <;> rfl

/-- `getOrCreateIdentity` always succeeds. -/
theorem getOrCreateIdentity_ok (st : WorldState) :
    ∃ idp, (getOrCreateIdentity st).1 = .ok idp := by
  rcases hv : identityPublicView st with _ | ⟨e, x⟩
  · obtain ⟨e, x, d, h1, _, _⟩ := getOrCreateIdentity_view_none st hv
    exact ⟨_, h1⟩
  · obtain ⟨d, h1, _, _⟩ := getOrCreateIdentity_view_some st e x hv
    exact ⟨_, h1⟩

/-- `getOrCreateIdentity` never touches sessions, the `localStorage`
cache, the lock, the enabled flag, or the peer record. -/
theorem getOrCreateIdentity_preserves (st : WorldState) :
    (getOrCreateIdentity st).2.locked = st.locked ∧
    (getOrCreateIdentity st).2.lsClientPub = st.lsClientPub ∧
    (getOrCreateIdentity st).2.sessions = st.sessions ∧
    (getOrCreateIdentity st).2.nmEnabled = st.nmEnabled ∧
    alistGet (getOrCreateIdentity st).2.vault ENC_KEY_CLIENT_DATA =
      alistGet st.vault ENC_KEY_CLIENT_DATA ∧
    clientDataView (getOrCreateIdentity st).2 = clientDataView st := by
  obtain ⟨hEd, hX, hm, hk, hl, hls, hsess, hnm, hview, hvC⟩ := getOrCreateIdentity_pre st
  unfold getOrCreateIdentity
  dsimp only
  rw [hEd, hX, hm]
  have hcdv : clientDataView
      ((getOrCreatePairingSecret (ensureEncryptionInitialized st)).2) =
      clientDataView st := clientDataView_congr st _ hl hvC
  obtain ⟨g2, g3, g4, g5, g6, g7, g8⟩ :=
    (generateAndPersistIdentity_spec
      ((getOrCreatePairingSecret (ensureEncryptionInitialized st)).2)).2
  have hgC : alistGet (generateAndPersistIdentity
      ((getOrCreatePairingSecret (ensureEncryptionInitialized st)).2)).2.vault
      ENC_KEY_CLIENT_DATA = alistGet st.vault ENC_KEY_CLIENT_DATA := by
    rw [g8 _ (by decide) (by decide) (by decide), hvC]
  have hgl : (generateAndPersistIdentity
      ((getOrCreatePairingSecret (ensureEncryptionInitialized st)).2)).2.locked =
      st.locked := by rw [g3, hl]
  have hgcdv : clientDataView (generateAndPersistIdentity
      ((getOrCreatePairingSecret (ensureEncryptionInitialized st)).2)).2 =
      clientDataView st := clientDataView_congr st _ hgl hgC
  rcases hEdv : edRead st with _ | ed
  · rcases hmv : st.memIdentity with _ | mem
    · exact ⟨hgl, by rw [g4, hls], by rw [g5, hsess], by rw [g6, hnm], hgC, hgcdv⟩
    · exact ⟨hl, hls, hsess, hnm, hvC, hcdv⟩
  · rcases hXv : xRead st with _ | xv
    · rcases hmv : st.memIdentity with _ | mem
      · exact ⟨hgl, by rw [g4, hls], by rw [g5, hsess], by rw [g6, hnm], hgC, hgcdv⟩
      · exact ⟨hl, hls, hsess, hnm, hvC, hcdv⟩
    · exact ⟨hl, hls, hsess, hnm, hvC, hcdv⟩

/-- `getPairingToken` leaves exactly the pairing-secret step's state. -/
theorem getPairingToken_state (pk : String) (st : WorldState) :
    (getPairingToken pk st).2 = (getOrCreatePairingSecret st).2 := by
  unfold getPairingToken
  split <;> rename_i heq <;> rw [heq]

/-- A non-falsy token's verification leaves exactly the pairing-secret
step's state. -/
theorem verifyPairingToken_state (pk tok : String) (st : WorldState) (h : tok ≠ "") :
    (verifyPairingToken pk tok st).2 = (getOrCreatePairingSecret st).2 := by
  unfold verifyPairingToken
  rw [if_neg h]
  split <;> rename_i expected st1 heq <;>
    calc st1 = (getPairingToken pk st).2 := by rw [heq]
    _ = (getOrCreatePairingSecret st).2 := getPairingToken_state pk st

/-- `resetIdentity` always succeeds, wipes all sessions, and clears the
`localStorage` cache. -/
theorem resetIdentity_spec (st : WorldState) :
    (∃ idp, (resetIdentity st).1 = .ok idp) ∧
    (resetIdentity st).2.sessions = [] ∧
    (resetIdentity st).2.lsClientPub = none := by
  unfold resetIdentity clearAllSessions
  dsimp only
  refine ⟨getOrCreateIdentity_ok _, ?_, ?_⟩
  · rw [(getOrCreateIdentity_preserves _).2.2.1]
    show (encryptionAdd _ _ _).2.sessions = _
    rw [(encryptionAdd_preserves _ _ _).2.2.2.1,
      (encryptionAdd_preserves _ _ _).2.2.2.1,
      (encryptionAdd_preserves _ _ _).2.2.2.1,
      (encryptionAdd_preserves _ _ _).2.2.2.1,
      (encryptionAdd_preserves _ _ _).2.2.2.1]
  · rw [(getOrCreateIdentity_preserves _).2.1]

/-! ## Claim C3 -/

/-- C3 (amended): after a successful session lookup on an unverified
session, `nmFinishHandshake` always fails — `getClientIdentityPublicKey`
is invoked without the client argument, so member access on `undefined`
throws a TypeError before the peer/length/transcript/signature checks —
and the failure does not close the session: the state is unchanged and
the same `sessionId` is still found.  (The only `closeSession` call sits
on the signature-verification failure path, which this TypeError makes
unreachable.) -/
theorem c3_finishHandshake_failure_leaves_session_open (st : WorldState)
    (sid sig : String) (s : Session) (h1 : sid ≠ "") (h2 : sig ≠ "")
    (h3 : getSession st sid = some s) (h4 : s.clientVerified = false) :
    nmFinishHandshake sid sig st = (.error .typeError, st) ∧
    getSession (nmFinishHandshake sid sig st).2 sid = some s := by
  have hmain : nmFinishHandshake sid sig st = (.error .typeError, st) := by
    unfold nmFinishHandshake
    rw [if_neg h1, if_neg h2, h3]
    simp [h4, getClientIdentityPublicKey, getClientData]
  exact ⟨hmain, by rw [hmain]; exact h3⟩

set_option maxRecDepth 40000 in
/-- C3 witness: the amended theorem at a concrete live session. -/
theorem c3_finishHandshake_witness :
    nmFinishHandshake "s1" "sig" sessionState = (.error .typeError, sessionState) ∧
    getSession (nmFinishHandshake "s1" "sig" sessionState).2 "s1" = some demoSession :=
  c3_finishHandshake_failure_leaves_session_open sessionState "s1" "sig" demoSession
    (by decide) (by decide) (by decide) (by decide)

set_option maxRecDepth 40000 in
/-- C3 counterexample: the claim as stated demands that a failure of
`finishHandshake` after a successful lookup of an unverified session make
a subsequent lookup yield SessionNotFound; here is a failing call after
which the session is still found. -/
theorem c3_finishHandshake_counterexample :
    (nmFinishHandshake "s1" "sig" sessionState).1 = .error .typeError ∧
    getSession (nmFinishHandshake "s1" "sig" sessionState).2 "s1" ≠ none := by
  exact ⟨by decide, by decide⟩

/-! ## Claim C4 -/

/-- C4 (amended): a `DecryptFailed` from `decryptWithSession` and a
`ReplayDetected` from `recordIncomingSeq` leave the entire world state
unchanged: the offending session stays findable, and the identity and
pairing records are untouched.  (These failures do not close the
session; the only crypto failure that closes one is finishHandshake's
signature path.) -/
theorem c4_crypto_failures_leave_state_unchanged :
    (∀ (st : WorldState) (sid : String) (nonce ct : Bytes),
      (decryptWithSession sid nonce ct st).1 = .error .decryptFailed →
      (decryptWithSession sid nonce ct st).2 = st) ∧
    (∀ (st : WorldState) (sid : String) (v : JSNum),
      (recordIncomingSeq sid v st).1 = .error .replayDetected →
      (recordIncomingSeq sid v st).2 = st) := by
  constructor
  · intro st sid nonce ct _
    unfold decryptWithSession
    split
    · rfl
    · split
      · rfl
      · split <;> rfl
  · intro st sid v h
    have halt : (recordIncomingSeq sid v st).1 = .ok () ∨
        (recordIncomingSeq sid v st).2 = st := by
      unfold recordIncomingSeq
      split
      · exact .inr rfl
      · split
        · exact .inr rfl
        · exact .inr rfl
        · exact .inr rfl
        · exact .inr rfl
        · split
          · exact .inr rfl
          · exact .inl rfl
    rcases halt with halt | halt
    · rw [halt] at h
      exact absurd h (by simp)
    · exact halt

set_option maxRecDepth 40000 in
/-- C4 witness: concrete failing decrypt and replay calls whose states
are unchanged. -/
theorem c4_crypto_failures_witness :
    (decryptWithSession "s1" (List.replicate 24 0) (List.replicate 20 0) sessionState).2 =
      sessionState ∧
    (recordIncomingSeq "s1" (.num 0) sessionState).2 = sessionState :=
  ⟨c4_crypto_failures_leave_state_unchanged.1 sessionState "s1"
      (List.replicate 24 0) (List.replicate 20 0) (by decide),
   c4_crypto_failures_leave_state_unchanged.2 sessionState "s1" (.num 0) (by decide)⟩

set_option maxRecDepth 40000 in
/-- C4 counterexample: a call failing with `DecryptFailed` after which
the offending session is still found — the claim says it would be
closed. -/
theorem c4_decrypt_failed_counterexample :
    (decryptWithSession "s1" (List.replicate 24 0) (List.replicate 20 0) sessionState).1 =
      .error .decryptFailed ∧
    getSession (decryptWithSession "s1" (List.replicate 24 0) (List.replicate 20 0)
      sessionState).2 "s1" = some demoSession :=
  ⟨by decide, by decide⟩

/-! ## Claim C5 -/

/-- C5 (amended): for a live session, `recordIncomingSeq` raises
`InvalidSeq` exactly on non-number or non-finite values, raises
`ReplayDetected` exactly when the finite `seq ≤ lastRecvSeq`, and on
success stores `seq` as the new `lastRecvSeq` — so accepted values are
strictly increasing.  Integrality and non-negativity are not checked:
any finite rational above `lastRecvSeq` is accepted (negative values are
rejected only through the replay comparison). -/
theorem c5_recordIncomingSeq_characterization (st : WorldState) (sid : String)
    (s : Session) (hs : getSession st sid = some s) :
    (∀ v : JSNum, v.isFiniteNumber = false →
      recordIncomingSeq sid v st = (.error .invalidSeq, st)) ∧
    (∀ q : Rat, q ≤ s.lastRecvSeq →
      recordIncomingSeq sid (.num q) st = (.error .replayDetected, st)) ∧
    (∀ q : Rat, s.lastRecvSeq < q →
      recordIncomingSeq sid (.num q) st =
        (.ok (), recordSuccessState st sid s q)) := by
  refine ⟨?_, ?_, ?_⟩
  · intro v hv
    unfold recordIncomingSeq
    rw [hs]
    cases v with
    | notNum => rfl
    | nan => rfl
    | posInf => rfl
    | negInf => rfl
    | num q => simp [JSNum.isFiniteNumber] at hv
  · intro q hq
    unfold recordIncomingSeq
    rw [hs]
    dsimp only
    rw [if_pos hq]
  · intro q hq
    unfold recordIncomingSeq
    rw [hs]
    dsimp only
    rw [if_neg (not_le.mpr hq)]
    rfl

set_option maxRecDepth 40000 in
/-- C5 witness: the characterization at a live session with
`lastRecvSeq = 0`: `NaN` is invalid, a replayed `0` is rejected, and `1`
is accepted and stored. -/
theorem c5_recordIncomingSeq_witness :
    recordIncomingSeq "s1" .nan sessionState = (.error .invalidSeq, sessionState) ∧
    recordIncomingSeq "s1" (.num 0) sessionState =
      (.error .replayDetected, sessionState) ∧
    recordIncomingSeq "s1" (.num 1) sessionState =
      (.ok (), recordSuccessState sessionState "s1" demoSession 1) :=
  ⟨(c5_recordIncomingSeq_characterization sessionState "s1" demoSession
      (by decide)).1 .nan (by decide),
   (c5_recordIncomingSeq_characterization sessionState "s1" demoSession
      (by decide)).2.1 0 (by decide),
   (c5_recordIncomingSeq_characterization sessionState "s1" demoSession
      (by decide)).2.2 1 (by decide)⟩

set_option maxRecDepth 40000 in
/-- C5 counterexample: the claim says any `seq` that is not a
non-negative *integer* is rejected; the code accepts the non-integer
`1/2` (it exceeds `lastRecvSeq = 0`) and stores it. -/
theorem c5_non_integer_seq_accepted :
    (recordIncomingSeq "s1" (.num (mkRat 1 2)) sessionState).1 = .ok () ∧
    (match getSession (recordIncomingSeq "s1" (.num (mkRat 1 2)) sessionState).2 "s1" with
     | some s => s.lastRecvSeq
     | none => 0) = mkRat 1 2 ∧
    (mkRat 1 2).den ≠ 1 := by
  exact ⟨by decide, by decide, by decide⟩

/-! ## Claim C1 -/

set_option maxRecDepth 40000 in
/-- C1: at the failing input (pairing secret = 32 zero bytes, Ed25519
public key = 32 `0x01` bytes) the code's pairing code, `790949-67D0`,
differs from the documented derivation `sha256(tag ‖ secret ‖ pk)`,
which gives `313685-A34A`: the second `input.set(publicKey,
secret.length)` call in `getPairingCode` overwrites bytes 32..64 of the
preimage — contradicting the function's own comment and the spec.  The
formatting (`%06d-%04X` of `h[0..4] mod 10^6` and `h[4..6]`) and the
determinism of the derivation are as claimed; only the hash preimage
deviates. -/
theorem c1_pairing_code_uses_overlaid_preimage :
    getPairingCode "AQEBAQEBAQEBAQEBAQEBAQEBAQEBAQEBAQEBAQEBAQE="
      "AAAAAAAAAAAAAAAAAAAAAAAAAAAAAAAAAAAAAAAAAAA=" = "790949-67D0" ∧
    getPairingCodeSpecLayout "AQEBAQEBAQEBAQEBAQEBAQEBAQEBAQEBAQEBAQEBAQE="
      "AAAAAAAAAAAAAAAAAAAAAAAAAAAAAAAAAAAAAAAAAAA=" = "313685-A34A" ∧
    getPairingCode "AQEBAQEBAQEBAQEBAQEBAQEBAQEBAQEBAQEBAQEBAQE="
        "AAAAAAAAAAAAAAAAAAAAAAAAAAAAAAAAAAAAAAAAAAA=" ≠
      getPairingCodeSpecLayout "AQEBAQEBAQEBAQEBAQEBAQEBAQEBAQEBAQEBAQEBAQE="
        "AAAAAAAAAAAAAAAAAAAAAAAAAAAAAAAAAAAAAAAAAAA=" := by
  have h1 : getPairingCode "AQEBAQEBAQEBAQEBAQEBAQEBAQEBAQEBAQEBAQEBAQE="
      "AAAAAAAAAAAAAAAAAAAAAAAAAAAAAAAAAAAAAAAAAAA=" = "790949-67D0" := by decide
  have h2 : getPairingCodeSpecLayout "AQEBAQEBAQEBAQEBAQEBAQEBAQEBAQEBAQEBAQEBAQE="
      "AAAAAAAAAAAAAAAAAAAAAAAAAAAAAAAAAAAAAAAAAAA=" = "313685-A34A" := by decide
  refine ⟨h1, h2, ?_⟩
  rw [h1, h2]
  decide

/-! ## Claim C2 -/

/-- C2: whenever `nmGetAppIdentity` is called with both parameters
present and the pairing-token verification succeeds, the handler throws
a TypeError — `getClientIdentityPublicKey()` is invoked without
`this.client`, so the already-paired check, the `PENDING` write and the
identity response are all unreachable — and the stored peer record is
unchanged.  (The claimed `PeerAlreadyPaired`/store-and-respond behaviour
cannot occur.) -/
theorem c2_nmGetAppIdentity_throws_typeError (st st1 st2 : WorldState)
    (tok k : String) (ident : IdentityPublic)
    (h1 : tok ≠ "") (h2 : k ≠ "")
    (h3 : getOrCreateIdentity st = (.ok ident, st1))
    (h4 : verifyPairingToken ident.ed25519PublicKey tok st1 = (.ok true, st2)) :
    nmGetAppIdentity tok k st = (.error .typeError, st2) ∧
    clientDataView st2 = clientDataView st := by
  constructor
  · unfold nmGetAppIdentity
    rw [if_neg h1, if_neg h2]
    simp only [h3, h4]
    rfl
  · have hst1 : st1 = (getOrCreateIdentity st).2 := by rw [h3]
    have hst2 : st2 = (verifyPairingToken ident.ed25519PublicKey tok st1).2 := by
      rw [h4]
    have hsec : st2 = (getOrCreatePairingSecret st1).2 := by
      rw [hst2, verifyPairingToken_state _ _ _ h1]
    obtain ⟨p1, _, _, _, _, _, _, p8⟩ := getOrCreatePairingSecret_preserves st1
    have hc1 : clientDataView st2 = clientDataView st1 := by
      rw [hsec]
      exact clientDataView_congr st1 _ p1 (p8 _ (by decide))
    have hc2 : clientDataView st1 = clientDataView st := by
      rw [hst1]
      exact (getOrCreateIdentity_preserves st).2.2.2.2.2
    rw [hc1, hc2]

set_option maxRecDepth 400000 in
/-- C2 witness: the theorem at the stored identity of `identityState`
and its genuine pairing token `039716-204A` (the code the buggy
derivation produces for secret `0x07*32` and key `0x01*32`): the call
throws TypeError and the peer record stays as it was. -/
theorem c2_nmGetAppIdentity_witness :
    nmGetAppIdentity "039716-204A" "E" identityState = (.error .typeError, identityState) ∧
    clientDataView identityState = clientDataView identityState :=
  c2_nmGetAppIdentity_throws_typeError identityState identityState identityState
    "039716-204A" "E" identityStatePublic (by decide) (by decide) (by decide) (by decide)

/-! ## Claim C6 -/

/-- C6 (amended): with the native-messaging flag off, `beginHandshake`
and `checkPairingStatus` (the handlers that consult the flag) fail with
`NativeMessagingDisabled` without acting, but `closeSession`,
`finishHandshake` and `resetPairing` never consult the flag:
`closeSession` closes and returns ok, `finishHandshake` proceeds exactly
as when enabled (it can fail for its own reasons, never with
`NativeMessagingDisabled`), and `resetPairing` performs the full reset
and succeeds. -/
theorem c6_disabled_gate_coverage (st : WorldState) (hd : st.nmEnabled = false) :
    (∀ p, nmBeginHandshake p st = (.error .nativeMessagingDisabled, st)) ∧
    (∀ k, checkExtensionPairingStatus k st = (.error .nativeMessagingDisabled, st)) ∧
    (∀ sid, sid ≠ "" → nmCloseSession sid st = (.ok ⟨true⟩, closeSession st sid)) ∧
    (∀ sid sig, (nmFinishHandshake sid sig st).1 ≠ .error .nativeMessagingDisabled) ∧
    ((∃ r, (nmResetPairing st).1 = .ok r) ∧ (nmResetPairing st).2.sessions = []) := by
  refine ⟨?_, ?_, ?_, ?_, ?_⟩
  · intro p
    unfold nmBeginHandshake
    rw [hd]
    rfl
  · intro k
    unfold checkExtensionPairingStatus
    rw [hd]
    rfl
  · intro sid h
    unfold nmCloseSession
    rw [if_neg h]
  · intro sid sig
    unfold nmFinishHandshake
    split
    · simp
    · split
      · simp
      · split
        · simp
        · split
          · simp
          · simp [getClientIdentityPublicKey, getClientData]
  · have hspec := resetIdentity_spec { st with sessions := [] }
    obtain ⟨⟨idp, hok⟩, hsess, _⟩ := hspec
    unfold nmResetPairing clearAllSessions
    dsimp only
    constructor
    · rcases hres : resetIdentity { st with sessions := [] } with ⟨r, st2⟩
      rcases r with e | newId
      · rw [hres] at hok
        simp at hok
      · exact ⟨_, rfl⟩
    · rcases hres : resetIdentity { st with sessions := [] } with ⟨r, st2⟩
      have h2 : st2.sessions = [] := by
        have : st2 = (resetIdentity { st with sessions := [] }).2 := by rw [hres]
        rw [this]
        exact hsess
      rcases r with e | newId <;> simpa using h2

set_option maxRecDepth 40000 in
/-- C6 witness: the amended theorem at `disabledState` (flag off, one
live session): the gated handlers fail `NativeMessagingDisabled`,
`closeSession "s1"` succeeds and removes the session, `finishHandshake`
does not fail `NativeMessagingDisabled`. -/
theorem c6_disabled_gate_witness :
    nmBeginHandshake "x" disabledState = (.error .nativeMessagingDisabled, disabledState) ∧
    checkExtensionPairingStatus "E" disabledState =
      (.error .nativeMessagingDisabled, disabledState) ∧
    nmCloseSession "s1" disabledState = (.ok ⟨true⟩, closeSession disabledState "s1") ∧
    (nmFinishHandshake "s1" "sig" disabledState).1 ≠ .error .nativeMessagingDisabled :=
  ⟨(c6_disabled_gate_coverage disabledState (by decide)).1 "x",
   (c6_disabled_gate_coverage disabledState (by decide)).2.1 "E",
   (c6_disabled_gate_coverage disabledState (by decide)).2.2.1 "s1" (by decide),
   (c6_disabled_gate_coverage disabledState (by decide)).2.2.2.1 "s1" "sig"⟩

set_option maxRecDepth 40000 in
/-- C6 counterexample: the claim says `closeSession` fails with
`NativeMessagingDisabled` when the flag is off without performing its
action; in fact it returns ok and removes the session. -/
theorem c6_closeSession_ignores_disabled_flag :
    (nmCloseSession "s1" disabledState).1 = .ok ⟨true⟩ ∧
    getSession (nmCloseSession "s1" disabledState).2 "s1" = none :=
  ⟨by decide, by decide⟩

/-! ## Claim C7 -/

/-- C7 (amended): the unprotected cache obeys exactly these updates —
`confirmClientPairing(K)` sets it to `K` when it succeeds (and its
no-record/mismatch failures change nothing at all), identity reset
clears it — but `setClientIdentityPublicKey` neither clears nor checks
it while unconditionally (re)writing a `PENDING` record, so a `PENDING`
record can coexist with a populated cache (pin `K`, confirm `K`, pin `K`
again). -/
theorem c7_cache_update_discipline (st : WorldState) (k state : String) :
    ((confirmClientPairing k st).1 = .ok () →
      (confirmClientPairing k st).2.lsClientPub = some k) ∧
    ((confirmClientPairing k st).1 = .error .noPendingPairing ∨
      (confirmClientPairing k st).1 = .error .clientKeyMismatch →
      (confirmClientPairing k st).2 = st) ∧
    ((setClientIdentityPublicKey k state st).2.lsClientPub = st.lsClientPub) ∧
    ((resetIdentity st).2.lsClientPub = none) := by
  have hmain : ∀ h12 : Except Err Unit × WorldState, h12 = confirmClientPairing k st →
      (h12.1 = .ok () → h12.2.lsClientPub = some k) ∧
      (h12.1 = .error .noPendingPairing ∨ h12.1 = .error .clientKeyMismatch →
        h12.2 = st) := by
    intro h12 hrun
    rw [hrun]
    unfold confirmClientPairing
    rw [getClientData_passed]
    dsimp only
    rcases hd : clientDataView st with _ | l
    · dsimp only [jsonFieldOrNull]
      constructor
      · intro h
        exact absurd h (by simp)
      · intro _
        rfl
    · rcases hf : jsonFieldOrNull (some l) "publicKey" with _ | p
      · constructor
        · intro h
          exact absurd h (by simp)
        · intro _
          rfl
      · dsimp only
        by_cases hvk : p ≠ k
        · rw [if_pos hvk]
          constructor
          · intro h
            exact absurd h (by simp)
          · intro _
            rfl
        · rw [if_neg hvk]
          rcases hloc : st.locked with _ | _
          · have hadd : encryptionAdd { st with lsClientPub := some k }
                ENC_KEY_CLIENT_DATA
                (jsonStringifyFlat (alistPut l "pairingState" CONFIRMED)) =
                (.ok (),
                 { vault := alistPut st.vault ENC_KEY_CLIENT_DATA
                     (jsonStringifyFlat (alistPut l "pairingState" CONFIRMED)),
                   locked := st.locked,
                   encInitialized := st.encInitialized,
                   memIdentity := st.memIdentity,
                   lsClientPub := some k,
                   sessions := st.sessions,
                   nmEnabled := st.nmEnabled,
                   rng := st.rng,
                   keygenCalls := st.keygenCalls,
                   now := st.now }) := by
              unfold encryptionAdd
              rw [if_neg (by rw [hloc]; simp)]
            rw [hloc] at hadd
            rw [hadd]
            constructor
            · intro _
              rfl
            · intro h
              rcases h with h | h <;> exact absurd h (by simp)
          · have hadd : encryptionAdd { st with lsClientPub := some k }
                ENC_KEY_CLIENT_DATA
                (jsonStringifyFlat (alistPut l "pairingState" CONFIRMED)) =
                (.error .kvError, { st with lsClientPub := some k }) := by
              unfold encryptionAdd
              rw [if_pos (by rw [hloc])]
            rw [hloc] at hadd
            rw [hadd]
            constructor
            · intro h
              exact absurd h (by simp)
            · intro h
              rcases h with h | h <;> exact absurd h (by simp)
  obtain ⟨ha, hb⟩ := hmain (confirmClientPairing k st) rfl
  refine ⟨ha, hb, ?_, (resetIdentity_spec st).2.2⟩
  unfold setClientIdentityPublicKey
  split
  · rfl
  · split
    · rename_i st1 heq
      have hst1 : st1 = (encryptionAdd st ENC_KEY_CLIENT_DATA
          (jsonStringifyFlat [("publicKey", k), ("pairingState", state)])).2 := by
        rw [heq]
      rw [hst1]
      exact (encryptionAdd_preserves _ _ _).2.2.1
    · rename_i e st1 heq
      have hst1 : st1 = (encryptionAdd st ENC_KEY_CLIENT_DATA
          (jsonStringifyFlat [("publicKey", k), ("pairingState", state)])).2 := by
        rw [heq]
      rw [hst1]
      exact (encryptionAdd_preserves _ _ _).2.2.1

set_option maxRecDepth 40000 in
/-- C7 witness: the amended theorem's cache updates at the concrete
pin–confirm run: confirming `"K"` fills the cache, re-pinning leaves it,
resetting clears it. -/
theorem c7_cache_update_witness :
    (confirmClientPairing "K" c7Pinned).2.lsClientPub = some "K" ∧
    (setClientIdentityPublicKey "K" PENDING c7Confirmed).2.lsClientPub =
      c7Confirmed.lsClientPub ∧
    (resetIdentity c7Confirmed).2.lsClientPub = none :=
  ⟨(c7_cache_update_discipline c7Pinned "K" PENDING).1 (by decide),
   (c7_cache_update_discipline c7Confirmed "K" PENDING).2.2.1,
   (c7_cache_update_discipline c7Confirmed "K" PENDING).2.2.2⟩

set_option maxRecDepth 40000 in
/-- C7 counterexample: after pin `K` — confirm `K` — pin `K` (each step
succeeding), the stored record is `PENDING` while the unprotected cache
still holds `K`: the claimed invariant "`PENDING` implies empty cache"
fails in a reachable state. -/
theorem c7_pending_with_populated_cache :
    (setClientIdentityPublicKey "K" PENDING baseState).1 = .ok () ∧
    (confirmClientPairing "K" c7Pinned).1 = .ok () ∧
    (setClientIdentityPublicKey "K" PENDING c7Confirmed).1 = .ok () ∧
    (getClientPairingState .passed c7Repinned).1 = .ok (some PENDING) ∧
    c7Repinned.lsClientPub = some "K" :=
  ⟨by decide, by decide, by decide, by decide, by decide⟩

/-! ## Claim C8 -/

/-- C8 (amended): `getOrCreateIdentity` generates a fresh keypair iff
both of: the Ed25519 or the X25519 blob read is empty, and no in-memory
identity is cached.  A missing `creationDate` (or pairing secret) does
not trigger keypair regeneration.  Consequently two consecutive calls
return identical public keys and the second performs no generation. -/
theorem c8_generation_iff_blobs_missing (st : WorldState) :
    ((getOrCreateIdentity st).2.keygenCalls = st.keygenCalls +
      (if (edRead st = none ∨ xRead st = none) ∧ st.memIdentity = none
       then 1 else 0)) ∧
    (∀ id1 id2, (getOrCreateIdentity st).1 = .ok id1 →
      (getOrCreateIdentity (getOrCreateIdentity st).2).1 = .ok id2 →
      id1.ed25519PublicKey = id2.ed25519PublicKey ∧
      id1.x25519PublicKey = id2.x25519PublicKey ∧
      (getOrCreateIdentity (getOrCreateIdentity st).2).2.keygenCalls =
        (getOrCreateIdentity st).2.keygenCalls) := by
  have hcond : ((edRead st = none ∨ xRead st = none) ∧ st.memIdentity = none) ↔
      identityPublicView st = none := by
    unfold identityPublicView
    rcases edRead st with _ | ed <;> rcases xRead st with _ | xv <;>
      rcases st.memIdentity with _ | mem <;> simp
  constructor
  · rcases hv : identityPublicView st with _ | ⟨e, x⟩
    · obtain ⟨e, x, d, hok, hview, hkg⟩ := getOrCreateIdentity_view_none st hv
      rw [hkg, if_pos (hcond.mpr hv)]
    · obtain ⟨d, hok, hview, hkg⟩ := getOrCreateIdentity_view_some st e x hv
      rw [hkg, if_neg (fun hc => by rw [hcond.mp hc] at hv; exact Option.noConfusion hv)]
      omega
  · intro id1 id2 h1 h2
    rcases hv : identityPublicView st with _ | ⟨e, x⟩
    · obtain ⟨e, x, d, hok1, hview1, _⟩ := getOrCreateIdentity_view_none st hv
      obtain ⟨d2, hok2, _, hk2⟩ :=
        getOrCreateIdentity_view_some (getOrCreateIdentity st).2 e x hview1
      rw [h1] at hok1
      rw [h2] at hok2
      simp only [Except.ok.injEq] at hok1 hok2
      rw [hok1, hok2]
      exact ⟨rfl, rfl, hk2⟩
    · obtain ⟨d, hok1, hview1, _⟩ := getOrCreateIdentity_view_some st e x hv
      obtain ⟨d2, hok2, _, hk2⟩ :=
        getOrCreateIdentity_view_some (getOrCreateIdentity st).2 e x hview1
      rw [h1] at hok1
      rw [h2] at hok2
      simp only [Except.ok.injEq] at hok1 hok2
      rw [hok1, hok2]
      exact ⟨rfl, rfl, hk2⟩

set_option maxRecDepth 400000 in
/-- C8 witness: on a fresh install the first call generates
`c8Identity`, the second call returns the same public keys and performs
no generation. -/
theorem c8_generation_witness :
    (getOrCreateIdentity (getOrCreateIdentity baseState).2).1 =
      .ok c8Identity ∧
    c8Identity.ed25519PublicKey = c8Identity.ed25519PublicKey ∧
    c8Identity.x25519PublicKey = c8Identity.x25519PublicKey ∧
    (getOrCreateIdentity (getOrCreateIdentity baseState).2).2.keygenCalls =
      (getOrCreateIdentity baseState).2.keygenCalls := by
  have h := (c8_generation_iff_blobs_missing baseState).2 c8Identity c8Identity
    (by decide) (by decide)
  exact ⟨by decide, h.1 ▸ rfl, h.2.1 ▸ rfl, h.2.2⟩

set_option maxRecDepth 400000 in
/-- C8 counterexample: with both key blobs present but `creationDate`
absent — one of the four persisted identity keys is missing — the claim
demands fresh keypair generation, yet the call generates nothing and
returns the stored keys with a substituted date. -/
theorem c8_missing_creation_date_no_regen :
    readNorm identityState ENC_KEY_CREATION_DATE = none ∧
    (getOrCreateIdentity identityState).2.keygenCalls =
      identityState.keygenCalls ∧
    (getOrCreateIdentity identityState).1 = .ok identityStatePublic :=
  ⟨by decide, by decide, by decide⟩

/-! ## Claim C9 -/

/-- C9: for every live session and valid plaintext, decrypting what
`encryptWithSession` returned — same session id, the nonce and
ciphertext it produced — yields exactly the original plaintext. -/
theorem c9_seal_open_roundtrip (st : WorldState) (sid : String) (s : Session)
    (pt : Bytes) (hs : getSession st sid = some s) (hpt : pt.valid) :
    ∀ r st', encryptWithSession sid pt st = (.ok r, st') →
      decryptWithSession sid (fromBase64 r.nonceB64) (fromBase64 r.ciphertextB64) st' =
        (.ok pt, st') := by
  intro r st' henc
  unfold encryptWithSession at henc
  rw [hs] at henc
  dsimp only at henc
  simp only [Prod.mk.injEq, Except.ok.injEq] at henc
  obtain ⟨hr, hst⟩ := henc
  subst hr
  subst hst
  unfold decryptWithSession
  dsimp only
  rw [show getSession { st with
        rng := st.rng + 1,
        sessions := alistPut st.sessions sid
          { s with sendSeq := s.sendSeq + 1 } } sid =
      some { s with sendSeq := s.sendSeq + 1 } from alistGet_put_self _ _ _]
  dsimp only
  have hnv : (freshBytes st.rng 24).valid := freshBytes_valid _ _
  have hcv : (secretboxSeal s.key (freshBytes st.rng 24) pt).valid :=
    secretboxSeal_valid _ _ _
  rw [fromBase64_toBase64 _ hnv, fromBase64_toBase64 _ hcv]
  have hlen := secretboxSeal_length s.key (freshBytes st.rng 24) pt
  rw [if_neg (by omega)]
  rw [secretboxOpen_seal _ _ _ hpt]

set_option maxRecDepth 400000 in
/-- C9 witness: sealing `[104, 105]` (`"hi"`) in session `"s1"` and
opening the produced frame in the same session returns `[104, 105]`. -/
theorem c9_seal_open_witness :
    decryptWithSession "s1" (fromBase64 c9Res.nonceB64)
      (fromBase64 c9Res.ciphertextB64) c9Enc.2 = (.ok [104, 105], c9Enc.2) :=
  c9_seal_open_roundtrip sessionState "s1" demoSession [104, 105]
    (by decide) (by decide) c9Res c9Enc.2 (by decide)

/-! ## Claim C10 -/

/-- C10: `confirmClientPairing` never inspects the stored
`pairingState`: it fails `NoPendingPairing` exactly when no stored
record carries a (non-empty) `publicKey`, fails `ClientKeyMismatch`
exactly when the stored key differs from the argument, and otherwise
succeeds — in particular it re-confirms a record already `CONFIRMED` or
with no state field, since none of these conditions mention the state. -/
theorem c10_confirm_ignores_pairing_state (st : WorldState) (k : String) :
    ((confirmClientPairing k st).1 = .error .noPendingPairing ↔
      storedClientPk st = none) ∧
    (∀ p, storedClientPk st = some p →
      ((confirmClientPairing k st).1 = .error .clientKeyMismatch ↔ p ≠ k)) ∧
    (∀ p, storedClientPk st = some p → p = k →
      (confirmClientPairing k st).1 = .ok ()) := by
  unfold storedClientPk
  unfold confirmClientPairing
  rw [getClientData_passed]
  dsimp only
  rcases hd : clientDataView st with _ | l
  · dsimp only [jsonFieldOrNull]
    exact ⟨by simp, fun p hp => absurd hp (by simp),
      fun p hp _ => absurd hp (by simp)⟩
  · have hnl : st.locked = false := by
      rcases hL : st.locked with _ | _
      · rfl
      · exfalso
        unfold clientDataView readNorm encryptionGetRaw at hd
        rw [if_pos hL] at hd
        exact Option.noConfusion hd
    rcases hf : jsonFieldOrNull (some l) "publicKey" with _ | p
    · exact ⟨by simp, fun p hp => absurd hp (by simp),
        fun p hp _ => absurd hp (by simp)⟩
    · dsimp only
      by_cases hvk : p = k
      · subst hvk
        rw [if_neg (by simp)]
        have hadd : encryptionAdd { st with lsClientPub := some p }
            ENC_KEY_CLIENT_DATA
            (jsonStringifyFlat (alistPut l "pairingState" CONFIRMED)) =
            (.ok (),
             { vault := alistPut st.vault ENC_KEY_CLIENT_DATA
                 (jsonStringifyFlat (alistPut l "pairingState" CONFIRMED)),
               locked := st.locked,
               encInitialized := st.encInitialized,
               memIdentity := st.memIdentity,
               lsClientPub := some p,
               sessions := st.sessions,
               nmEnabled := st.nmEnabled,
               rng := st.rng,
               keygenCalls := st.keygenCalls,
               now := st.now }) := by
          unfold encryptionAdd
          rw [if_neg (by rw [hnl]; simp)]
        rw [hadd]
        refine ⟨by simp, ?_, ?_⟩
        · intro q hq
          simp only [Option.some.injEq] at hq
          subst hq
          simp
        · intro q hq _
          rfl
      · rw [if_pos hvk]
        refine ⟨by simp, ?_, ?_⟩
        · intro q hq
          simp only [Option.some.injEq] at hq
          subst hq
          simp [hvk]
        · intro q hq hqk
          simp only [Option.some.injEq] at hq
          subst hq
          exact absurd hqk hvk

set_option maxRecDepth 40000 in
/-- C10 witness: on a record already `CONFIRMED` for `"K"`, confirming
`"K"` again succeeds, confirming `"K2"` fails `ClientKeyMismatch`, and
on an empty store confirming fails `NoPendingPairing`. -/
theorem c10_confirm_witness :
    (confirmClientPairing "K" confirmedPeerState).1 = .ok () ∧
    (confirmClientPairing "K2" confirmedPeerState).1 = .error .clientKeyMismatch ∧
    (confirmClientPairing "K" baseState).1 = .error .noPendingPairing :=
  ⟨(c10_confirm_ignores_pairing_state confirmedPeerState "K").2.2 "K" (by decide) rfl,
   ((c10_confirm_ignores_pairing_state confirmedPeerState "K2").2.1 "K"
      (by decide)).mpr (by decide),
   (c10_confirm_ignores_pairing_state baseState "K").1.mpr (by decide)⟩

end PearPass
